import Mathlib

/-!
Shallow embedding of the planning core of `differentiable_rmap` and proofs
about it.

The embedding covers:
* the sample-set dump of `RmapSampling::dumpSampleSet` (`RmapSampling.cpp`),
* the factory functions `createRmapPlanningFootstep` / `createRmapSampling`
  and the `std::to_string(SamplingSpace)` helper (`SamplingUtils.h`),
* the QP assembly of `RmapPlanningFootstep::setup/runOnce`
  (`RmapPlanningFootstep.cpp`) and of `RmapPlanningLocomanip::setup/runOnce`
  (`RmapPlanningLocomanip.cpp`),
* the pose/sample/input conversion contract of the Manifold Sample Model
  (declared in `SamplingUtils.h`; the implementation file `SamplingUtils.hpp`
  is not part of the sources, so those maps are modelled from the spec).

Real-valued quantities of the program are embedded as rationals (`ℚ`) so that
all definitions are executable; the conversion models of the Manifold Sample
Model use `ℝ` where trigonometry is involved.  Eigen vectors and matrices of
the QP assembly are embedded as total functions `ℕ → ℚ` and `ℕ → ℕ → ℚ`;
entries beyond the declared dimensions are irrelevant (the builders keep them
at zero) and every theorem only speaks about in-range entries.
-/

namespace DiffRmap

/-- Dense vector of the QP assembly (`Eigen::VectorXd`), as a total map from
index to entry. -/
abbrev Vec := ℕ → ℚ

/-- Dense matrix of the QP assembly (`Eigen::MatrixXd`), as a total map from
(row, column) to entry. -/
abbrev Mat := ℕ → ℕ → ℚ

/-- The all-zero vector (`setZero`). -/
def zeroVec : Vec := fun _ => 0

/-- The all-zero matrix (`setZero`). -/
def zeroMat : Mat := fun _ _ => 0

/-! ### Sample-set dump (`RmapSampling::dumpSampleSet`)

A sample is kept as its flat position vector (a list of rationals) paired
with its reachability flag, mirroring `sample_list_[i]` and
`reachability_list_[i]`. -/

/-- One record of the persisted `RmapSampleSet` message: a flat position
vector and the reachability flag (`sample_set_msg.samples[msg_idx]`). -/
structure RmapSample where
  position : List ℚ
  is_reachable : Bool
deriving DecidableEq, Repr

/-- Build the message record of one sample (`position[j] = sample[j]`,
`is_reachable = reachability_list_[i]`). -/
def toRecord (sb : List ℚ × Bool) : RmapSample :=
  ⟨sb.1, sb.2⟩

/-- The placement loop of `dumpSampleSet` (lines 159-184): reachable samples
are written at `reachable_idx` counting up from the front, unreachable ones at
`size - 1 - unreachable_idx` counting down from the back.  The array is
modelled with `Option` entries so that unwritten slots are visible. -/
def dumpLoop : List (List ℚ × Bool) → List (Option RmapSample) → ℕ → ℕ → List (Option RmapSample)
  | [], arr, _, _ => arr
  | sb :: rest, arr, reachableIdx, unreachableIdx =>
    if sb.2 then
      dumpLoop rest (arr.set reachableIdx (some (toRecord sb))) (reachableIdx + 1) unreachableIdx
    else
      dumpLoop rest (arr.set (arr.length - 1 - unreachableIdx) (some (toRecord sb)))
        reachableIdx (unreachableIdx + 1)

/-- The record list persisted by `dumpSampleSet`: the placement loop run on an
array with one slot per input sample, both counters starting at zero. -/
def dumpRecords (input : List (List ℚ × Bool)) : List RmapSample :=
  (dumpLoop input (List.replicate input.length none) 0 0).filterMap id

/-- `a.cwiseMin(b)`, componentwise minimum. -/
def cwiseMin (a b : List ℚ) : List ℚ := List.zipWith min a b

/-- `a.cwiseMax(b)`, componentwise maximum. -/
def cwiseMax (a b : List ℚ) : List ℚ := List.zipWith max a b

/-- The persisted `min` vector: start from the sentinel `1e10` in every
component and fold `cwiseMin` over all samples (lines 154, 182). -/
def sampleSetMin (dim : ℕ) (input : List (List ℚ × Bool)) : List ℚ :=
  input.foldl (fun acc sb => cwiseMin acc sb.1) (List.replicate dim ((10 : ℚ) ^ 10))

/-- The persisted `max` vector: start from the sentinel `-1e10` and fold
`cwiseMax` over all samples (lines 155, 183). -/
def sampleSetMax (dim : ℕ) (input : List (List ℚ × Bool)) : List ℚ :=
  input.foldl (fun acc sb => cwiseMax acc sb.1) (List.replicate dim (-((10 : ℚ) ^ 10)))

/-! ### Factories keyed on the `SamplingSpace` enumeration

`SamplingSpace` is a C++ `enum class` with underlying integer values
`R2 = 21, SO2 = 22, SE2 = 23, R3 = 31, SO3 = 32, SE3 = 33`; an arbitrary
integer can be cast into it, so the factory argument is modelled as `ℤ`. -/

/-- Tag of the template specialization a factory instantiates. -/
inductive SpaceTag
  | R2 | SO2 | SE2 | R3 | SO3 | SE3
deriving DecidableEq, Repr

/-- The underlying integer value of each recognized `SamplingSpace` member. -/
def samplingSpaceCode : SpaceTag → ℤ
  | .R2 => 21
  | .SO2 => 22
  | .SE2 => 23
  | .R3 => 31
  | .SO3 => 32
  | .SE3 => 33

/-- `std::to_string(SamplingSpace)` of `SamplingUtils.h` (lines 130-161):
returns the member name for the six recognized values and otherwise throws a
fatal error naming the offending integer value. -/
def toStringSamplingSpace (v : ℤ) : Except String String :=
  if v = 21 then .ok "R2"
  else if v = 22 then .ok "SO2"
  else if v = 23 then .ok "SE2"
  else if v = 31 then .ok "R3"
  else if v = 32 then .ok "SO3"
  else if v = 33 then .ok "SE3"
  else .error ("[to_string] Unsupported SamplingSpace: " ++ toString v)

/-- `createRmapPlanningFootstep` (`RmapPlanningFootstep.cpp` lines 307-328):
returns the specialization matching the enumeration value, and otherwise
throws; the throw's message argument evaluates `std::to_string` on the
unrecognized value, which itself throws first, naming the value. -/
def createRmapPlanningFootstep (v : ℤ) : Except String SpaceTag :=
  if v = 21 then .ok .R2
  else if v = 22 then .ok .SO2
  else if v = 23 then .ok .SE2
  else if v = 31 then .ok .R3
  else if v = 32 then .ok .SO3
  else if v = 33 then .ok .SE3
  else
    match toStringSamplingSpace v with
    | .error e => .error e
    | .ok s => .error ("[createRmapPlanningFootstep] Unsupported SamplingSpace: " ++ s)

/-- `createRmapSampling` (`RmapSampling.cpp` lines 200-222): same dispatch as
`createRmapPlanningFootstep`. -/
def createRmapSampling (v : ℤ) : Except String SpaceTag :=
  if v = 21 then .ok .R2
  else if v = 22 then .ok .SO2
  else if v = 23 then .ok .SE2
  else if v = 31 then .ok .R3
  else if v = 32 then .ok .SO3
  else if v = 33 then .ok .SE3
  else
    match toStringSamplingSpace v with
    | .error e => .error e
    | .ok s => .error ("[createRmapSampling] Unsupported SamplingSpace: " ++ s)

/-! ### Manifold Sample Model conversions

The declarations live in `SamplingUtils.h`; the definitions live in
`SamplingUtils.hpp`, which is not among the sources.  The maps below are
therefore modelled from the spec (§3, §4.1): a Sample is the minimal flat
encoding of a pose, the classifier Input carries unit-norm sub-blocks for
rotation encodings, and the listed dimensions (planar translation 2, planar
rotation 1, planar rigid motion 3, spatial translation 3, spatial rotation
with a 4-dim quaternion-like input, spatial rigid motion) are the manifold
dimensions. -/

/-- Modelled from the spec: a planar rotation represented as a unit complex
number (the rotation part of a planar pose). -/
@[ext]
structure RotSO2 where
  val : ℂ
  unit_abs : Complex.abs val = 1

/-- Modelled from the spec: `poseToSample` for the planar-rotation space SO2
(missing `SamplingUtils.hpp`); the flat 1-dim sample is the rotation angle. -/
noncomputable def poseToSampleSO2 (p : RotSO2) : ℝ := Complex.arg p.val

/-- Modelled from the spec: `sampleToPose` for SO2. -/
noncomputable def sampleToPoseSO2 (θ : ℝ) : RotSO2 :=
  ⟨Complex.exp (θ * Complex.I), Complex.abs_exp_ofReal_mul_I θ⟩

/-- Modelled from the spec: `sampleToInput` for SO2: the singularity-free
unit-norm encoding `(cos θ, sin θ)` of the angle. -/
noncomputable def sampleToInputSO2 (θ : ℝ) : ℝ × ℝ := (Real.cos θ, Real.sin θ)

/-- Modelled from the spec: `inputToSample` for SO2: the angle of the encoded
unit vector. -/
noncomputable def inputToSampleSO2 (ci : ℝ × ℝ) : ℝ :=
  Complex.arg (ci.1 + ci.2 * Complex.I)

/-- Valid SO2 samples: angles in the principal range. -/
def ValidSampleSO2 (θ : ℝ) : Prop := θ ∈ Set.Ioc (-Real.pi) Real.pi

/-- Modelled from the spec: `poseToSample` for the planar-translation space R2
is the identity on the translation's xy-part. -/
def poseToSampleR2 (p : ℝ × ℝ) : ℝ × ℝ := p

/-- Modelled from the spec: `sampleToPose` for R2. -/
def sampleToPoseR2 (s : ℝ × ℝ) : ℝ × ℝ := s

/-- Modelled from the spec: `sampleToInput` for R2 (translation-only spaces
need no re-encoding). -/
def sampleToInputR2 (s : ℝ × ℝ) : ℝ × ℝ := s

/-- Modelled from the spec: `inputToSample` for R2. -/
def inputToSampleR2 (c : ℝ × ℝ) : ℝ × ℝ := c

/-- Modelled from the spec: `poseToSample` for the spatial-translation space
R3. -/
def poseToSampleR3 (p : ℝ × ℝ × ℝ) : ℝ × ℝ × ℝ := p

/-- Modelled from the spec: `sampleToPose` for R3. -/
def sampleToPoseR3 (s : ℝ × ℝ × ℝ) : ℝ × ℝ × ℝ := s

/-- Modelled from the spec: `sampleToInput` for R3. -/
def sampleToInputR3 (s : ℝ × ℝ × ℝ) : ℝ × ℝ × ℝ := s

/-- Modelled from the spec: `inputToSample` for R3. -/
def inputToSampleR3 (c : ℝ × ℝ × ℝ) : ℝ × ℝ × ℝ := c

/-- Modelled from the spec: a planar rigid-motion pose: translation xy and a
unit-complex rotation. -/
def PoseSE2 : Type := (ℝ × ℝ) × RotSO2

/-- Modelled from the spec: `poseToSample` for the planar rigid-motion space
SE2: the flat 3-dim sample `(x, y, θ)`. -/
noncomputable def poseToSampleSE2 (p : PoseSE2) : ℝ × ℝ × ℝ :=
  (p.1.1, p.1.2, Complex.arg p.2.val)

/-- Modelled from the spec: `sampleToPose` for SE2. -/
noncomputable def sampleToPoseSE2 (s : ℝ × ℝ × ℝ) : PoseSE2 :=
  ((s.1, s.2.1), sampleToPoseSO2 s.2.2)

/-- Modelled from the spec: `sampleToInput` for SE2: translation unchanged,
angle re-encoded as the unit-norm sub-block `(cos θ, sin θ)`. -/
noncomputable def sampleToInputSE2 (s : ℝ × ℝ × ℝ) : ℝ × ℝ × ℝ × ℝ :=
  (s.1, s.2.1, Real.cos s.2.2, Real.sin s.2.2)

/-- Modelled from the spec: `inputToSample` for SE2. -/
noncomputable def inputToSampleSE2 (c : ℝ × ℝ × ℝ × ℝ) : ℝ × ℝ × ℝ :=
  (c.1, c.2.1, Complex.arg (c.2.2.1 + c.2.2.2 * Complex.I))

/-- Valid SE2 samples: the angle component in the principal range. -/
def ValidSampleSE2 (s : ℝ × ℝ × ℝ) : Prop := s.2.2 ∈ Set.Ioc (-Real.pi) Real.pi

/-- Modelled from the spec: `poseToSample` for the spatial-rotation space SO3;
the pose's rotation and the sample are both the 4-dim quaternion-like
encoding, so the map is the identity on the encoding. -/
def poseToSampleSO3 (p : ℝ × ℝ × ℝ × ℝ) : ℝ × ℝ × ℝ × ℝ := p

/-- Modelled from the spec: `sampleToPose` for SO3. -/
def sampleToPoseSO3 (s : ℝ × ℝ × ℝ × ℝ) : ℝ × ℝ × ℝ × ℝ := s

/-- Modelled from the spec: `sampleToInput` for SO3 (the 4-dim quaternion-like
encoding is already the classifier input). -/
def sampleToInputSO3 (s : ℝ × ℝ × ℝ × ℝ) : ℝ × ℝ × ℝ × ℝ := s

/-- Modelled from the spec: `inputToSample` for SO3. -/
def inputToSampleSO3 (c : ℝ × ℝ × ℝ × ℝ) : ℝ × ℝ × ℝ × ℝ := c

/-- Modelled from the spec: `poseToSample` for the spatial rigid-motion space
SE3: translation xyz together with the 4-dim rotation encoding. -/
def poseToSampleSE3 (p : (ℝ × ℝ × ℝ) × (ℝ × ℝ × ℝ × ℝ)) : (ℝ × ℝ × ℝ) × (ℝ × ℝ × ℝ × ℝ) := p

/-- Modelled from the spec: `sampleToPose` for SE3. -/
def sampleToPoseSE3 (s : (ℝ × ℝ × ℝ) × (ℝ × ℝ × ℝ × ℝ)) : (ℝ × ℝ × ℝ) × (ℝ × ℝ × ℝ × ℝ) := s

/-- Modelled from the spec: `sampleToInput` for SE3. -/
def sampleToInputSE3 (s : (ℝ × ℝ × ℝ) × (ℝ × ℝ × ℝ × ℝ)) : (ℝ × ℝ × ℝ) × (ℝ × ℝ × ℝ × ℝ) := s

/-- Modelled from the spec: `inputToSample` for SE3. -/
def inputToSampleSE3 (c : (ℝ × ℝ × ℝ) × (ℝ × ℝ × ℝ × ℝ)) : (ℝ × ℝ × ℝ) × (ℝ × ℝ × ℝ × ℝ) := c

/-! ### Matrix building blocks of the QP assembly -/

/-- `M.block<d, d>(r, c).diagonal().setConstant(v)`: overwrite the diagonal of
the `d × d` block whose top-left corner is `(r, c)` with the constant `v`. -/
def blockDiagSetConst (M : Mat) (r c d : ℕ) (v : ℚ) : Mat :=
  fun p q =>
    if r ≤ p ∧ p < r + d ∧ c ≤ q ∧ q < c + d ∧ p - r = q - c then v
    else M p q

/-- `M.block<1, len>(r, c0) = vals`: overwrite the length-`len` row segment of
row `r` starting at column `c0`. -/
def setRowSegment (M : Mat) (r c0 len : ℕ) (vals : ℕ → ℚ) : Mat :=
  fun p q => if p = r ∧ c0 ≤ q ∧ q < c0 + len then vals (q - c0) else M p q

/-- `v.segment<1>(i) << x`: overwrite one entry of a vector. -/
def setVecEntry (v : Vec) (i : ℕ) (x : ℚ) : Vec :=
  fun j => if j = i then x else v j

/-- `-1 * g.transpose() * M`, the row vector with entry
`t ↦ -(Σ_k g(k) · M(k, t))` where `k` ranges over the `d` velocity
components. -/
def negRowMatMul (g : Vec) (M : Mat) (d : ℕ) : ℕ → ℚ :=
  fun t => -(∑ k ∈ Finset.range d, g k * M k t)

/-! ### Adjacent regularization matrix

Both `RmapPlanningFootstep::setup` (lines 88-99) and
`RmapPlanningLocomanip::setup` (lines 108-137) run the same loop, the latter
twice: once at block offset `0` for the foot chain and once at offset
`motion_len * vel_dim_` for the hand chain. -/

/-- One iteration of the adjacent-regularization loop: set the diagonal of
block `(k, k)` to `(k == N-1 ? 1 : 2) * w` and, unless `k` is the last index,
the diagonals of blocks `(k+1, k)` and `(k, k+1)` to `-w`. -/
def adjacentRegStep (N d : ℕ) (w : ℚ) (off k : ℕ) (M : Mat) : Mat :=
  let M1 := blockDiagSetConst M (off + k * d) (off + k * d) d
      ((if k = N - 1 then (1 : ℚ) else 2) * w)
  if k = N - 1 then M1
  else
    blockDiagSetConst
      (blockDiagSetConst M1 (off + (k + 1) * d) (off + k * d) d (-w))
      (off + k * d) (off + (k + 1) * d) d (-w)

/-- The adjacent-regularization loop run for iterations `0, …, m-1`. -/
def adjacentRegAux (N d : ℕ) (w : ℚ) (off : ℕ) : ℕ → Mat → Mat
  | 0, M => M
  | m + 1, M => adjacentRegStep N d w off m (adjacentRegAux N d w off m M)

/-- `adjacent_reg_mat_` of the footstep planner (`setup`, lines 88-99), for
horizon `N`, velocity dimension `d` and weight `w`. -/
def footstepAdjacentRegMat (N d : ℕ) (w : ℚ) : Mat :=
  adjacentRegAux N d w 0 N zeroMat

/-- `adjacent_reg_mat_` of the locomanipulation planner (`setup`,
lines 108-137): the foot chain at block offset `0` followed by the hand chain
at block offset `hand_start_config_idx_ = motion_len * vel_dim_`. -/
def locomanipAdjacentRegMat (L d : ℕ) (w : ℚ) : Mat :=
  adjacentRegAux L d w (L * d) L (adjacentRegAux L d w 0 L zeroMat)

/-! ### QP coefficients -/

/-- The QP data handed to the solver (`OmgCore::QpCoeff`): dimensions from
`setup(dim_var, dim_eq, dim_ineq)`, objective matrix/vector, inequality
matrix/vector and box bounds. -/
structure QpCoeff where
  dim_var : ℕ
  dim_eq : ℕ
  dim_ineq : ℕ
  obj_mat : Mat
  obj_vec : Vec
  ineq_mat : Mat
  ineq_vec : Vec
  x_min : Vec
  x_max : Vec

/-! ### Footstep planner (`RmapPlanningFootstep`)

The class template is embedded generically over the sample type `S` of the
instantiating sampling space.  The manifold operations (`sampleError`,
`relSample`, `relVelToVelMat`, `integrateVelToSample`; implemented in the
missing `SamplingUtils.hpp`) and the trained classifier (`calcSVMValue`,
`calcSVMGrad`) are context parameters, as is the external QP solver, which
returns a solution vector together with its `solve_failed_` flag.
`mirror_active` captures `SamplingSpaceType == SamplingSpace::SE2 &&
config_.alternate_lr`; in the SE2 instantiation `mirrorSample` and
`mirrorVelMat` are the concrete tail/bottom-row negations below. -/
structure FootstepCtx (S : Type) where
  footstep_num : ℕ
  vel_dim : ℕ
  mirror_active : Bool
  delta_config_limit : ℚ
  svm_thre : ℚ
  adjacent_reg_weight : ℚ
  current_sample_seq : List S
  target_sample : S
  identity_sample : S
  sampleError : S → S → Vec
  relSample : S → S → S
  relVelToVelMat : S → S → Bool → Mat
  mirrorSample : S → S
  mirrorVelMat : Mat → Mat
  calcSVMValue : S → ℚ
  calcSVMGrad : S → Vec
  integrateVelToSample : S → Vec → S
  solver : QpCoeff → Vec × Bool

/-- `dim_var = vel_dim_ * footstep_num` (`setup`, line 61). -/
def footstepDimVar {S : Type} (ctx : FootstepCtx S) : ℕ :=
  ctx.vel_dim * ctx.footstep_num

/-- `obj_vec_` right after lines 107-109 of `runOnce`: zero except for the
tail velocity block, which holds
`sampleError(target_sample_, current_sample_seq_.back())`. -/
def footstepObjVecBase {S : Type} (ctx : FootstepCtx S) : Vec :=
  fun j =>
    if footstepDimVar ctx - ctx.vel_dim ≤ j ∧ j < footstepDimVar ctx then
      ctx.sampleError ctx.target_sample
        (ctx.current_sample_seq.getD (ctx.footstep_num - 1) ctx.identity_sample)
        (j - (footstepDimVar ctx - ctx.vel_dim))
    else 0

/-- `lambda = qp_coeff_.obj_vec_.squaredNorm() + 1e-3` (line 110). -/
def footstepLambda {S : Type} (ctx : FootstepCtx S) : ℚ :=
  (∑ j ∈ Finset.range (footstepDimVar ctx), footstepObjVecBase ctx j ^ 2) + 1 / 1000

/-- `obj_mat_` after line 112: zero except for ones on the diagonal of the
tail velocity block. -/
def footstepObjMatDiagTail {S : Type} (ctx : FootstepCtx S) : Mat :=
  fun p q =>
    if p = q ∧ footstepDimVar ctx - ctx.vel_dim ≤ p ∧ p < footstepDimVar ctx then 1
    else 0

/-- `obj_mat_` after line 113 (`diagonal().array() += lambda`), before the
adjacent-regularization term is added. -/
def footstepObjMatPre {S : Type} (ctx : FootstepCtx S) : Mat :=
  fun p q =>
    if p = q ∧ p < footstepDimVar ctx then
      footstepObjMatDiagTail ctx p q + footstepLambda ctx
    else footstepObjMatDiagTail ctx p q

/-- `current_config` (lines 114-119): segment `i` holds
`sampleError(identity_sample_, current_sample_seq_[i])`. -/
def footstepCurrentConfig {S : Type} (ctx : FootstepCtx S) : Vec :=
  fun j =>
    if j < footstepDimVar ctx then
      ctx.sampleError ctx.identity_sample
        (ctx.current_sample_seq.getD (j / ctx.vel_dim) ctx.identity_sample)
        (j % ctx.vel_dim)
    else 0

/-- `obj_vec_` after line 120: the base vector plus
`adjacent_reg_mat_ * current_config`. -/
def footstepObjVecFull {S : Type} (ctx : FootstepCtx S) : Vec :=
  fun j =>
    footstepObjVecBase ctx j +
      ∑ k ∈ Finset.range (footstepDimVar ctx),
        footstepAdjacentRegMat ctx.footstep_num ctx.vel_dim ctx.adjacent_reg_weight j k *
          footstepCurrentConfig ctx k

/-- `obj_mat_` after line 121: the pre matrix plus `adjacent_reg_mat_`. -/
def footstepObjMatFull {S : Type} (ctx : FootstepCtx S) : Mat :=
  fun p q =>
    footstepObjMatPre ctx p q +
      footstepAdjacentRegMat ctx.footstep_num ctx.vel_dim ctx.adjacent_reg_weight p q

/-- `pre_sample` of inequality row `i` (lines 127-128): the identity pose's
sample for the first step, else the previous waypoint. -/
def footstepPreSample {S : Type} (ctx : FootstepCtx S) (i : ℕ) : S :=
  if i = 0 then ctx.identity_sample
  else ctx.current_sample_seq.getD (i - 1) ctx.identity_sample

/-- `suc_sample` of inequality row `i` (line 129). -/
def footstepSucSample {S : Type} (ctx : FootstepCtx S) (i : ℕ) : S :=
  ctx.current_sample_seq.getD i ctx.identity_sample

/-- `rel_sample` after the optional mirroring of lines 131-135: for odd rows
of an alternating SE2 instantiation the tail components are negated. -/
def footstepRelSampleEff {S : Type} (ctx : FootstepCtx S) (i : ℕ) : S :=
  let rel := ctx.relSample (footstepPreSample ctx i) (footstepSucSample ctx i)
  if ctx.mirror_active ∧ i % 2 = 1 then ctx.mirrorSample rel else rel

/-- `svm_grad` of row `i` (lines 136-137), evaluated at the (possibly
mirrored) relative sample. -/
def footstepGrad {S : Type} (ctx : FootstepCtx S) (i : ℕ) : Vec :=
  ctx.calcSVMGrad (footstepRelSampleEff ctx i)

/-- `rel_vel_mat_suc` after the optional bottom-row negation of
lines 138-143. -/
def footstepMatSuc {S : Type} (ctx : FootstepCtx S) (i : ℕ) : Mat :=
  let m := ctx.relVelToVelMat (footstepPreSample ctx i) (footstepSucSample ctx i) true
  if ctx.mirror_active ∧ i % 2 = 1 then ctx.mirrorVelMat m else m

/-- `rel_vel_mat_pre` after the optional bottom-row negation of
lines 148-153. -/
def footstepMatPre {S : Type} (ctx : FootstepCtx S) (i : ℕ) : Mat :=
  let m := ctx.relVelToVelMat (footstepPreSample ctx i) (footstepSucSample ctx i) false
  if ctx.mirror_active ∧ i % 2 = 1 then ctx.mirrorVelMat m else m

/-- One iteration of the inequality loop of `runOnce` (lines 126-156): write
the successor block of row `i`, the row's inequality value, and (for `i > 0`)
the predecessor block. -/
def footstepIneqStep {S : Type} (ctx : FootstepCtx S) (i : ℕ) (MV : Mat × Vec) : Mat × Vec :=
  let d := ctx.vel_dim
  let M1 := setRowSegment MV.1 i (i * d) d (negRowMatMul (footstepGrad ctx i) (footstepMatSuc ctx i) d)
  let V1 := setVecEntry MV.2 i (ctx.calcSVMValue (footstepRelSampleEff ctx i) - ctx.svm_thre)
  if i = 0 then (M1, V1)
  else (setRowSegment M1 i ((i - 1) * d) d (negRowMatMul (footstepGrad ctx i) (footstepMatPre ctx i) d), V1)

/-- The inequality loop run for rows `0, …, m-1`, starting from the zeroed
matrices of lines 124-125. -/
def footstepIneqAux {S : Type} (ctx : FootstepCtx S) : ℕ → Mat × Vec
  | 0 => (zeroMat, zeroVec)
  | m + 1 => footstepIneqStep ctx m (footstepIneqAux ctx m)

/-- `ineq_mat_` after the loop. -/
def footstepIneqMat {S : Type} (ctx : FootstepCtx S) : Mat :=
  (footstepIneqAux ctx ctx.footstep_num).1

/-- `ineq_vec_` after the loop. -/
def footstepIneqVec {S : Type} (ctx : FootstepCtx S) : Vec :=
  (footstepIneqAux ctx ctx.footstep_num).2

/-- The complete QP handed to the solver by the footstep planner: dimensions
and box bounds from `setup` (lines 61-63; note no slack variables and
`setConstant` bounds over the whole variable vector), objective and inequality
data from `runOnce` (lines 106-156). -/
def footstepQpCoeff {S : Type} (ctx : FootstepCtx S) : QpCoeff where
  dim_var := footstepDimVar ctx
  dim_eq := 0
  dim_ineq := ctx.footstep_num
  obj_mat := footstepObjMatFull ctx
  obj_vec := footstepObjVecFull ctx
  ineq_mat := footstepIneqMat ctx
  ineq_vec := footstepIneqVec ctx
  x_min := fun _ => -ctx.delta_config_limit
  x_max := fun _ => ctx.delta_config_limit

/-- `RmapPlanningFootstep::runOnce` (solve and integrate, lines 158-165): the
solver's returned vector is integrated into every waypoint; the
`solve_failed_` flag is not consulted. -/
def footstepRunOnce {S : Type} (ctx : FootstepCtx S) : List S :=
  let vel_all := (ctx.solver (footstepQpCoeff ctx)).1
  (List.range ctx.footstep_num).map fun i =>
    ctx.integrateVelToSample (ctx.current_sample_seq.getD i ctx.identity_sample)
      (fun t => vel_all (i * ctx.vel_dim + t))

/-! ### SE2 instantiation of the footstep planner -/

/-- Flat SE2 sample `(x, y, θ)` of the QP embedding. -/
abbrev SE2Sample := ℚ × ℚ × ℚ

/-- `rel_sample.tail<2>() *= -1` (line 133): negate the last two components
of an SE2 sample. -/
def mirrorSE2Sample (s : SE2Sample) : SE2Sample := (s.1, -s.2.1, -s.2.2)

/-- `mat.bottomRows<2>() *= -1` (lines 141, 151): negate rows 1 and 2 of a
3-row matrix. -/
def negBottomRows2 (M : Mat) : Mat :=
  fun p q => if p = 1 ∨ p = 2 then -M p q else M p q

/-- The SE2 instantiation `RmapPlanningFootstep<SamplingSpace::SE2>`:
`vel_dim_ = 3`, the mirroring branches are compiled in, and the mirror
operations are the concrete negations above. -/
def footstepSE2Ctx (footstep_num : ℕ) (alternate_lr : Bool)
    (delta_config_limit svm_thre adjacent_reg_weight : ℚ)
    (current_sample_seq : List SE2Sample) (target_sample identity_sample : SE2Sample)
    (sampleError : SE2Sample → SE2Sample → Vec)
    (relSample : SE2Sample → SE2Sample → SE2Sample)
    (relVelToVelMat : SE2Sample → SE2Sample → Bool → Mat)
    (calcSVMValue : SE2Sample → ℚ) (calcSVMGrad : SE2Sample → Vec)
    (integrateVelToSample : SE2Sample → Vec → SE2Sample)
    (solver : QpCoeff → Vec × Bool) : FootstepCtx SE2Sample where
  footstep_num := footstep_num
  vel_dim := 3
  mirror_active := alternate_lr
  delta_config_limit := delta_config_limit
  svm_thre := svm_thre
  adjacent_reg_weight := adjacent_reg_weight
  current_sample_seq := current_sample_seq
  target_sample := target_sample
  identity_sample := identity_sample
  sampleError := sampleError
  relSample := relSample
  relVelToVelMat := relVelToVelMat
  mirrorSample := mirrorSE2Sample
  mirrorVelMat := negBottomRows2
  calcSVMValue := calcSVMValue
  calcSVMGrad := calcSVMGrad
  integrateVelToSample := integrateVelToSample
  solver := solver

/-! ### Locomanipulation planner (`RmapPlanningLocomanip`) -/

/-- The limbs of the locomanipulation planner. -/
inductive Limb
  | LeftFoot | RightFoot | LeftHand
deriving DecidableEq, Repr

/-- Context of `RmapPlanningLocomanip`, generic over the sample type `S` of
its sampling space (the class header fixing `SamplingSpaceType` is not among
the sources).  One classifier per limb (`rmap_planning_list_`), manifold
operations and the external solver are parameters as in `FootstepCtx`. -/
structure LocomanipCtx (S : Type) where
  motion_len : ℕ
  vel_dim : ℕ
  delta_config_limit : ℚ
  svm_thre : ℚ
  adjacent_reg_weight : ℚ
  reg_weight : ℚ
  svm_ineq_weight : ℚ
  start_sample : Limb → S
  current_foot_sample_seq : List S
  current_hand_sample_seq : List S
  target_hand_sample : S
  identity_sample : S
  sampleError : S → S → Vec
  relSample : S → S → S
  relVelToVelMat : S → S → Bool → Mat
  calcSVMValue : Limb → S → ℚ
  calcSVMGrad : Limb → S → Vec
  integrateVelToSample : S → Vec → S
  solver : QpCoeff → Vec × Bool

/-- `config_dim_ = 2 * motion_len * vel_dim_` (`setup`, line 74). -/
def locomanipConfigDim {S : Type} (ctx : LocomanipCtx S) : ℕ :=
  2 * ctx.motion_len * ctx.vel_dim

/-- `svm_ineq_dim_ = 3 * motion_len - 1` (`setup`, line 75). -/
def locomanipSvmIneqDim {S : Type} (ctx : LocomanipCtx S) : ℕ :=
  3 * ctx.motion_len - 1

/-- `collision_ineq_dim_ = 0` (`setup`, line 76). -/
def locomanipCollisionIneqDim {S : Type} (_ctx : LocomanipCtx S) : ℕ := 0

/-- `hand_start_config_idx_ = motion_len * vel_dim_` (`setup`, line 77). -/
def locomanipHandStartIdx {S : Type} (ctx : LocomanipCtx S) : ℕ :=
  ctx.motion_len * ctx.vel_dim

/-- `target_sample_error = sampleError(target_hand_sample_,
current_hand_sample_seq_.back())` (`runOnce`, lines 146-147). -/
def locomanipTargetSampleError {S : Type} (ctx : LocomanipCtx S) : Vec :=
  ctx.sampleError ctx.target_hand_sample
    (ctx.current_hand_sample_seq.getD (ctx.motion_len - 1) ctx.identity_sample)

/-- `target_sample_error.squaredNorm()` over the `vel_dim_` components. -/
def locomanipTargetErrSq {S : Type} (ctx : LocomanipCtx S) : ℚ :=
  ∑ k ∈ Finset.range ctx.vel_dim, locomanipTargetSampleError ctx k ^ 2

/-- `obj_mat_` of `runOnce` (lines 144-154, 172): ones on the diagonal of the
last hand velocity block, `squaredNorm + reg_weight` added on the whole
configuration diagonal, `svm_ineq_weight` on the slack diagonal, and the
adjacent-regularization matrix added on the top-left corner. -/
def locomanipObjMat {S : Type} (ctx : LocomanipCtx S) : Mat :=
  let cd := locomanipConfigDim ctx
  let M1 : Mat := fun p q =>
    if p = q ∧ cd - ctx.vel_dim ≤ p ∧ p < cd then 1 else zeroMat p q
  let M2 : Mat := fun p q =>
    if p = q ∧ p < cd then M1 p q + (locomanipTargetErrSq ctx + ctx.reg_weight)
    else M1 p q
  let M3 : Mat := fun p q =>
    if p = q ∧ cd ≤ p ∧ p < cd + locomanipSvmIneqDim ctx then ctx.svm_ineq_weight
    else M2 p q
  fun p q =>
    if p < cd ∧ q < cd then
      M3 p q + locomanipAdjacentRegMat ctx.motion_len ctx.vel_dim ctx.adjacent_reg_weight p q
    else M3 p q

/-- `current_config` of `runOnce` (lines 156-163): foot segments first, hand
segments from `hand_start_config_idx_`. -/
def locomanipCurrentConfig {S : Type} (ctx : LocomanipCtx S) : Vec :=
  fun j =>
    if j < locomanipHandStartIdx ctx then
      ctx.sampleError ctx.identity_sample
        (ctx.current_foot_sample_seq.getD (j / ctx.vel_dim) ctx.identity_sample)
        (j % ctx.vel_dim)
    else if j < locomanipConfigDim ctx then
      ctx.sampleError ctx.identity_sample
        (ctx.current_hand_sample_seq.getD ((j - locomanipHandStartIdx ctx) / ctx.vel_dim)
          ctx.identity_sample)
        ((j - locomanipHandStartIdx ctx) % ctx.vel_dim)
    else 0

/-- `obj_vec_` of `runOnce` (lines 145, 155, 165-171): the target error on
the last hand block, plus `adjacent_reg_mat_ * current_config` on the
configuration head, minus the start-sample anchoring terms on the first foot
and first hand blocks. -/
def locomanipObjVec {S : Type} (ctx : LocomanipCtx S) : Vec :=
  let cd := locomanipConfigDim ctx
  let hs := locomanipHandStartIdx ctx
  let v1 : Vec := fun j =>
    if cd - ctx.vel_dim ≤ j ∧ j < cd then
      locomanipTargetSampleError ctx (j - (cd - ctx.vel_dim))
    else zeroVec j
  let v2 : Vec := fun j =>
    if j < cd then
      v1 j + ∑ k ∈ Finset.range cd,
        locomanipAdjacentRegMat ctx.motion_len ctx.vel_dim ctx.adjacent_reg_weight j k *
          locomanipCurrentConfig ctx k
    else v1 j
  let v3 : Vec := fun j =>
    if j < ctx.vel_dim then
      v2 j - ctx.adjacent_reg_weight *
        ctx.sampleError ctx.identity_sample (ctx.start_sample Limb.LeftFoot) j
    else v2 j
  fun j =>
    if hs ≤ j ∧ j < hs + ctx.vel_dim then
      v3 j - ctx.adjacent_reg_weight *
        ctx.sampleError ctx.identity_sample (ctx.start_sample Limb.LeftHand) (j - hs)
    else v3 j

/-- `pre_foot_sample` of foot constraint row `i` (lines 179-180): the right
foot's start sample for the first row, else the previous foot waypoint. -/
def locomanipPreFootSample {S : Type} (ctx : LocomanipCtx S) (i : ℕ) : S :=
  if i = 0 then ctx.start_sample Limb.RightFoot
  else ctx.current_foot_sample_seq.getD (i - 1) ctx.identity_sample

/-- `suc_foot_sample` of foot constraint row `i` (line 181). -/
def locomanipSucFootSample {S : Type} (ctx : LocomanipCtx S) (i : ℕ) : S :=
  ctx.current_foot_sample_seq.getD i ctx.identity_sample

/-- The limb whose classifier is used for foot constraint row `i`
(lines 182-183). -/
def locomanipRowLimb (i : ℕ) : Limb :=
  if i % 2 = 0 then Limb.LeftFoot else Limb.RightFoot

/-- `rel_sample` of foot constraint row `i` (lines 185-186). -/
def locomanipRelSample {S : Type} (ctx : LocomanipCtx S) (i : ℕ) : S :=
  ctx.relSample (locomanipPreFootSample ctx i) (locomanipSucFootSample ctx i)

/-- `rel_svm_grad` of foot constraint row `i` (line 187). -/
def locomanipGrad {S : Type} (ctx : LocomanipCtx S) (i : ℕ) : Vec :=
  ctx.calcSVMGrad (locomanipRowLimb i) (locomanipRelSample ctx i)

/-- One iteration of the foot-to-foot reachability loop of `runOnce`
(lines 178-198): for `i > 0` write the predecessor block of row `i`, then the
successor block, then the row's inequality value. -/
def locomanipIneqStep {S : Type} (ctx : LocomanipCtx S) (i : ℕ) (MV : Mat × Vec) : Mat × Vec :=
  let d := ctx.vel_dim
  let pre := locomanipPreFootSample ctx i
  let suc := locomanipSucFootSample ctx i
  let M1 :=
    if i = 0 then MV.1
    else setRowSegment MV.1 i ((i - 1) * d) d
      (negRowMatMul (locomanipGrad ctx i) (ctx.relVelToVelMat pre suc false) d)
  let M2 := setRowSegment M1 i (i * d) d
    (negRowMatMul (locomanipGrad ctx i) (ctx.relVelToVelMat pre suc true) d)
  let V1 := setVecEntry MV.2 i
    (ctx.calcSVMValue (locomanipRowLimb i) (locomanipRelSample ctx i) - ctx.svm_thre)
  (M2, V1)

/-- The foot-to-foot loop run for rows `0, …, m-1`, starting from the zeroed
matrices of lines 175-176.  (The foot-to-hand block, lines 199-269, is
commented out in the source.) -/
def locomanipIneqAux {S : Type} (ctx : LocomanipCtx S) : ℕ → Mat × Vec
  | 0 => (zeroMat, zeroVec)
  | m + 1 => locomanipIneqStep ctx m (locomanipIneqAux ctx m)

/-- `ineq_mat_.rightCols(svm_ineq_dim_ + collision_ineq_dim_)
.diagonal().head(svm_ineq_dim_).setConstant(-1)` (lines 270-271): give each
inequality row `-1` on its own slack column. -/
def setSlackDiagNeg1 (M : Mat) (c0 n : ℕ) : Mat :=
  fun p q => if p < n ∧ q = c0 + p then -1 else M p q

/-- `ineq_mat_` after lines 175-271. -/
def locomanipIneqMat {S : Type} (ctx : LocomanipCtx S) : Mat :=
  setSlackDiagNeg1 ((locomanipIneqAux ctx ctx.motion_len).1)
    (locomanipConfigDim ctx) (locomanipSvmIneqDim ctx)

/-- `ineq_vec_` after the loop. -/
def locomanipIneqVec {S : Type} (ctx : LocomanipCtx S) : Vec :=
  (locomanipIneqAux ctx ctx.motion_len).2

/-- The complete QP handed to the solver by the locomanipulation planner:
dimensions and box bounds from `setup` (lines 79-88: slack variables appended
to the configuration variables, velocity bounds `±delta_config_limit`, slack
bounds `±1e10`), objective and inequality data from `runOnce`. -/
def locomanipQpCoeff {S : Type} (ctx : LocomanipCtx S) : QpCoeff where
  dim_var := locomanipConfigDim ctx + locomanipSvmIneqDim ctx + locomanipCollisionIneqDim ctx
  dim_eq := 0
  dim_ineq := locomanipSvmIneqDim ctx + locomanipCollisionIneqDim ctx
  obj_mat := locomanipObjMat ctx
  obj_vec := locomanipObjVec ctx
  ineq_mat := locomanipIneqMat ctx
  ineq_vec := locomanipIneqVec ctx
  x_min := fun j =>
    if j < locomanipConfigDim ctx then -ctx.delta_config_limit else -(10 ^ 10)
  x_max := fun j =>
    if j < locomanipConfigDim ctx then ctx.delta_config_limit else 10 ^ 10

/-- `RmapPlanningLocomanip::runOnce` (solve and integrate, lines 278-290):
on `solve_failed_` the velocity solution is zeroed before integration. -/
def locomanipRunOnce {S : Type} (ctx : LocomanipCtx S) : List S × List S :=
  let sol := ctx.solver (locomanipQpCoeff ctx)
  let vel_all := if sol.2 then zeroVec else sol.1
  ((List.range ctx.motion_len).map fun i =>
      ctx.integrateVelToSample (ctx.current_foot_sample_seq.getD i ctx.identity_sample)
        (fun t => vel_all (i * ctx.vel_dim + t)),
    (List.range ctx.motion_len).map fun i =>
      ctx.integrateVelToSample (ctx.current_hand_sample_seq.getD i ctx.identity_sample)
        (fun t => vel_all (locomanipHandStartIdx ctx + i * ctx.vel_dim + t)))

/-! ### Auxiliary closed forms and concrete instances -/

/-- Closed form of one adjacent-regularization chain, as established below:
`(i == N-1 ? 1 : 2) * w` on the diagonal blocks, `-w` on the neighbor blocks,
zero elsewhere. -/
def chainEntryFormula (N : ℕ) (w : ℚ) (i j a b : ℕ) : ℚ :=
  if i = j ∧ a = b then (if i = N - 1 then (1 : ℚ) else 2) * w
  else if (i = j + 1 ∨ j = i + 1) ∧ a = b then -w
  else 0

/-- Modelled from the spec: `integrateVelToSample` for the planar-translation
space R2 (missing `SamplingUtils.hpp`): linear addition of the velocity. -/
def integrateVelToSampleR2 (s : ℚ × ℚ) (v : Vec) : ℚ × ℚ :=
  (s.1 + v 0, s.2 + v 1)

/-- Modelled from the spec: `sampleError` for R2 (translation-only spaces use
exact vector subtraction). -/
def sampleErrorR2 (pre suc : ℚ × ℚ) : Vec :=
  fun t => if t = 0 then suc.1 - pre.1 else if t = 1 then suc.2 - pre.2 else 0

/-- Modelled from the spec: `relSample` for R2 (group inverse-compose is
subtraction for translations). -/
def relSampleR2 (pre suc : ℚ × ℚ) : ℚ × ℚ :=
  (suc.1 - pre.1, suc.2 - pre.2)

/-- Modelled from the spec: `relVelToVelMat` for R2 (identity Jacobian on the
2-dim velocity). -/
def relVelToVelMatR2 (_pre _suc : ℚ × ℚ) (_wrtSuc : Bool) : Mat :=
  fun p q => if p = q ∧ p < 2 then 1 else 0

/-- Concrete R2 footstep planner with one step and a solver stub that reports
failure while returning an all-ones vector. -/
def ctxFootstepFail : FootstepCtx (ℚ × ℚ) where
  footstep_num := 1
  vel_dim := 2
  mirror_active := false
  delta_config_limit := 1
  svm_thre := 0
  adjacent_reg_weight := 1
  current_sample_seq := [(0, 0)]
  target_sample := (1, 0)
  identity_sample := (0, 0)
  sampleError := sampleErrorR2
  relSample := relSampleR2
  relVelToVelMat := relVelToVelMatR2
  mirrorSample := id
  mirrorVelMat := id
  calcSVMValue := fun _ => 1
  calcSVMGrad := fun _ => zeroVec
  integrateVelToSample := integrateVelToSampleR2
  solver := fun _ => (fun _ => 1, true)

/-- Concrete R2 footstep planner whose failing solver stub returns the zero
vector. -/
def ctxFootstepFailZero : FootstepCtx (ℚ × ℚ) where
  footstep_num := 1
  vel_dim := 2
  mirror_active := false
  delta_config_limit := 1
  svm_thre := 0
  adjacent_reg_weight := 1
  current_sample_seq := [(3, 4)]
  target_sample := (1, 0)
  identity_sample := (0, 0)
  sampleError := sampleErrorR2
  relSample := relSampleR2
  relVelToVelMat := relVelToVelMatR2
  mirrorSample := id
  mirrorVelMat := id
  calcSVMValue := fun _ => 1
  calcSVMGrad := fun _ => zeroVec
  integrateVelToSample := integrateVelToSampleR2
  solver := fun _ => (zeroVec, true)

/-- Concrete locomanipulation planner (one motion step, R2-like samples) with
a solver stub that reports failure while returning a nonzero vector. -/
def ctxLocomanipFail : LocomanipCtx (ℚ × ℚ) where
  motion_len := 1
  vel_dim := 2
  delta_config_limit := 1
  svm_thre := 0
  adjacent_reg_weight := 1
  reg_weight := 1 / 1000000
  svm_ineq_weight := 1000000
  start_sample := fun _ => (0, 0)
  current_foot_sample_seq := [(1, 1)]
  current_hand_sample_seq := [(2, 2)]
  target_hand_sample := (5, 5)
  identity_sample := (0, 0)
  sampleError := sampleErrorR2
  relSample := relSampleR2
  relVelToVelMat := relVelToVelMatR2
  calcSVMValue := fun _ _ => 1
  calcSVMGrad := fun _ _ => zeroVec
  integrateVelToSample := integrateVelToSampleR2
  solver := fun _ => (fun _ => 7, true)

/-- Concrete SE2 footstep planner with the alternating-stance flag enabled,
used to instantiate the mirroring theorem. -/
def ctxFootstepSE2 : FootstepCtx SE2Sample :=
  footstepSE2Ctx 2 true 1 (1 / 10) 1
    [(1, 2, 3), (4, 5, 6)] (9, 9, 9) (0, 0, 0)
    (fun pre suc => fun t => if t = 0 then suc.1 - pre.1 else if t = 1 then suc.2.1 - pre.2.1 else if t = 2 then suc.2.2 - pre.2.2 else 0)
    (fun pre suc => (suc.1 - pre.1, suc.2.1 - pre.2.1, suc.2.2 - pre.2.2))
    (fun pre suc b => fun p q => if p = q ∧ p < 3 then (if b then 1 else -1) else pre.1 - suc.1)
    (fun s => s.1 + 2 * s.2.1 + 3 * s.2.2)
    (fun s => fun k => s.1 + s.2.1 * k + s.2.2)
    (fun s v => (s.1 + v 0, s.2.1 + v 1, s.2.2 + v 2))
    (fun _ => (zeroVec, false))

/-! ## Theorems -/

/-- C8: for every value of the `SamplingSpace` enumeration other than the six
recognized ones, both factories raise an immediate fatal error whose message
names the offending value instead of returning an instance; for each of the
six recognized values they return an instance of the corresponding
specialization. -/
theorem claim8_factory_dispatch (v : ℤ)
    (hv : v ≠ 21 ∧ v ≠ 22 ∧ v ≠ 23 ∧ v ≠ 31 ∧ v ≠ 32 ∧ v ≠ 33) :
    (createRmapPlanningFootstep v =
        .error ("[to_string] Unsupported SamplingSpace: " ++ toString v)
      ∧ createRmapSampling v =
        .error ("[to_string] Unsupported SamplingSpace: " ++ toString v))
    ∧ (∀ tag : SpaceTag, createRmapPlanningFootstep (samplingSpaceCode tag) = .ok tag
        ∧ createRmapSampling (samplingSpaceCode tag) = .ok tag) := by
  obtain ⟨h1, h2, h3, h4, h5, h6⟩ := hv
  refine ⟨⟨?_, ?_⟩, ?_⟩
  · simp [createRmapPlanningFootstep, toStringSamplingSpace, h1, h2, h3, h4, h5, h6]
  · simp [createRmapSampling, toStringSamplingSpace, h1, h2, h3, h4, h5, h6]
  · intro tag
    cases tag <;> exact ⟨rfl, rfl⟩

/-- Witness for C8 at the unrecognized value `0` and the recognized value
`R2`. -/
theorem claim8_witness :
    createRmapPlanningFootstep 0 =
      .error ("[to_string] Unsupported SamplingSpace: " ++ toString (0 : ℤ))
    ∧ createRmapSampling (samplingSpaceCode .R2) = .ok .R2 :=
  ⟨(claim8_factory_dispatch 0 (by decide)).1.1,
    ((claim8_factory_dispatch 0 (by decide)).2 .R2).2⟩

/-- C9: for every sampling space, `sampleToPose ∘ poseToSample` is the
identity on poses and `inputToSample ∘ sampleToInput` is the identity on
valid samples (conversions modelled from the spec; `SamplingUtils.hpp` is not
among the sources). -/
theorem claim9_conversion_roundtrips :
    (∀ p : ℝ × ℝ, sampleToPoseR2 (poseToSampleR2 p) = p)
    ∧ (∀ s : ℝ × ℝ, inputToSampleR2 (sampleToInputR2 s) = s)
    ∧ (∀ p : ℝ × ℝ × ℝ, sampleToPoseR3 (poseToSampleR3 p) = p)
    ∧ (∀ s : ℝ × ℝ × ℝ, inputToSampleR3 (sampleToInputR3 s) = s)
    ∧ (∀ p : RotSO2, sampleToPoseSO2 (poseToSampleSO2 p) = p)
    ∧ (∀ θ : ℝ, ValidSampleSO2 θ → inputToSampleSO2 (sampleToInputSO2 θ) = θ)
    ∧ (∀ p : PoseSE2, sampleToPoseSE2 (poseToSampleSE2 p) = p)
    ∧ (∀ s : ℝ × ℝ × ℝ, ValidSampleSE2 s → inputToSampleSE2 (sampleToInputSE2 s) = s)
    ∧ (∀ p : ℝ × ℝ × ℝ × ℝ, sampleToPoseSO3 (poseToSampleSO3 p) = p)
    ∧ (∀ s : ℝ × ℝ × ℝ × ℝ, inputToSampleSO3 (sampleToInputSO3 s) = s)
    ∧ (∀ p : (ℝ × ℝ × ℝ) × (ℝ × ℝ × ℝ × ℝ), sampleToPoseSE3 (poseToSampleSE3 p) = p)
    ∧ (∀ s : (ℝ × ℝ × ℝ) × (ℝ × ℝ × ℝ × ℝ), inputToSampleSE3 (sampleToInputSE3 s) = s) := by
  have hso2 : ∀ p : RotSO2, sampleToPoseSO2 (poseToSampleSO2 p) = p := by
    intro p
    apply RotSO2.ext
    show Complex.exp (↑(Complex.arg p.val) * Complex.I) = p.val
    have h := Complex.abs_mul_exp_arg_mul_I p.val
    rw [p.unit_abs] at h
    simpa using h
  have hso2in : ∀ θ : ℝ, ValidSampleSO2 θ → inputToSampleSO2 (sampleToInputSO2 θ) = θ := by
    intro θ hθ
    show Complex.arg (↑(Real.cos θ) + ↑(Real.sin θ) * Complex.I) = θ
    rw [Complex.ofReal_cos, Complex.ofReal_sin]
    exact Complex.arg_cos_add_sin_mul_I hθ
  refine ⟨fun p => rfl, fun s => rfl, fun p => rfl, fun s => rfl, hso2, hso2in,
    ?_, ?_, fun p => rfl, fun s => rfl, fun p => rfl, fun s => rfl⟩
  · intro p
    obtain ⟨⟨x, y⟩, r⟩ := p
    have h : sampleToPoseSO2 (poseToSampleSO2 r) = r := hso2 r
    simp only [poseToSampleSE2, sampleToPoseSE2]
    rw [show sampleToPoseSO2 (Complex.arg r.val) = r from h]
  · intro s hs
    obtain ⟨x, y, θ⟩ := s
    have h : inputToSampleSO2 (sampleToInputSO2 θ) = θ := hso2in θ hs
    simp only [sampleToInputSE2, inputToSampleSE2]
    rw [show Complex.arg (↑(Real.cos θ) + ↑(Real.sin θ) * Complex.I) = θ from h]

/-- Witness for C9: the SO2 and SE2 input round trips at the valid sample
with angle `0`. -/
theorem claim9_witness :
    inputToSampleSO2 (sampleToInputSO2 0) = 0
    ∧ inputToSampleSE2 (sampleToInputSE2 (1, 2, 0)) = (1, 2, 0) :=
  have hmem : (0 : ℝ) ∈ Set.Ioc (-Real.pi) Real.pi :=
    Set.mem_Ioc.mpr ⟨neg_lt_zero.mpr Real.pi_pos, Real.pi_nonneg⟩
  ⟨claim9_conversion_roundtrips.2.2.2.2.2.1 0 hmem,
    claim9_conversion_roundtrips.2.2.2.2.2.2.2.1 (1, 2, 0) hmem⟩

/-! ### The sample-set dump: characterization of the placement loop -/

/-- In-range `getD` is `getElem`. -/
theorem getD_eq_get_of_lt {α : Type} {l : List α} {n : ℕ} (d : α) (h : n < l.length) :
    l.getD n d = l[n] := by
  simp [List.getD_eq_getElem?_getD, List.getElem?_eq_getElem h]

/-- In-range `getD` is a member of the list. -/
theorem getD_mem_of_lt {α : Type} {l : List α} {n : ℕ} (d : α) (h : n < l.length) :
    l.getD n d ∈ l := by
  rw [getD_eq_get_of_lt d h]
  exact List.getElem_mem h

/-- `getD` on an append, left part. -/
theorem getD_append_lt {α : Type} {l₁ l₂ : List α} {n : ℕ} (d : α) (h : n < l₁.length) :
    (l₁ ++ l₂).getD n d = l₁.getD n d := by
  rw [getD_eq_get_of_lt d (by rw [List.length_append]; omega), getD_eq_get_of_lt d h]
  exact List.getElem_append_left h

/-- `getD` on an append, right part. -/
theorem getD_append_ge {α : Type} {l₁ l₂ : List α} {n : ℕ} (d : α)
    (h : l₁.length ≤ n) (h2 : n < l₁.length + l₂.length) :
    (l₁ ++ l₂).getD n d = l₂.getD (n - l₁.length) d := by
  rw [getD_eq_get_of_lt d (by rw [List.length_append]; omega),
    getD_eq_get_of_lt d (by omega)]
  exact List.getElem_append_right h

/-- Running the placement loop on an array whose front and back are already
filled: reachable records of the remaining input go right after the filled
front (in input order), unreachable ones right before the filled back (in
reverse input order). -/
theorem dumpLoop_append (rest : List (List ℚ × Bool)) :
    ∀ A B : List RmapSample,
      dumpLoop rest (A.map some ++ List.replicate rest.length none ++ B.map some)
          A.length B.length
        = (A ++ (rest.filter fun sb => sb.2).map toRecord
            ++ ((rest.filter fun sb => !sb.2).map toRecord).reverse ++ B).map some := by
  induction rest with
  | nil =>
    intro A B
    simp [dumpLoop]
  | cons sb rest ih =>
    intro A B
    by_cases hb : sb.2
    · have harr : ((A.map some ++ List.replicate (rest.length + 1) none ++ B.map some).set
            A.length (some (toRecord sb)))
          = (A ++ [toRecord sb]).map some ++ List.replicate rest.length none ++ B.map some := by
        rw [List.set_append_left _ _ (by simp),
          List.set_append_right _ _ (by simp)]
        simp [List.replicate_succ, List.append_assoc]
      have step : dumpLoop (sb :: rest)
            (A.map some ++ List.replicate (sb :: rest).length none ++ B.map some)
            A.length B.length
          = dumpLoop rest ((A ++ [toRecord sb]).map some
              ++ List.replicate rest.length none ++ B.map some) (A.length + 1) B.length := by
        rw [dumpLoop, if_pos hb, List.length_cons, harr]
      rw [step]
      have hlen : (A ++ [toRecord sb]).length = A.length + 1 := by simp
      have := ih (A ++ [toRecord sb]) B
      rw [hlen] at this
      rw [this]
      simp [List.filter_cons, hb, List.append_assoc]
    · have hlenarr : (A.map some ++ List.replicate (rest.length + 1) none ++ B.map some).length
          - 1 - B.length = A.length + rest.length := by
        simp
        omega
      have harr : ((A.map some ++ List.replicate (rest.length + 1) none ++ B.map some).set
            (A.length + rest.length) (some (toRecord sb)))
          = A.map some ++ List.replicate rest.length none ++ (toRecord sb :: B).map some := by
        have hrepl : List.replicate (rest.length + 1) (none : Option RmapSample)
            = List.replicate rest.length none ++ [none] := by
          simp [List.replicate_succ']
        rw [List.set_append_left _ _ (by simp),
          List.set_append_right _ _ (by simp), hrepl]
        simp only [List.length_map]
        rw [Nat.add_sub_cancel_left, List.set_append_right _ _ (by simp)]
        simp [List.append_assoc]
      have step : dumpLoop (sb :: rest)
            (A.map some ++ List.replicate (sb :: rest).length none ++ B.map some)
            A.length B.length
          = dumpLoop rest (A.map some ++ List.replicate rest.length none
              ++ (toRecord sb :: B).map some) A.length (B.length + 1) := by
        rw [dumpLoop, if_neg (by simp [hb]), List.length_cons, hlenarr, harr]
      rw [step]
      have := ih A (toRecord sb :: B)
      rw [show (toRecord sb :: B).length = B.length + 1 from rfl] at this
      rw [this]
      simp [List.filter_cons, hb, List.append_assoc]

/-- The record list of `dumpSampleSet`: reachable records in input order,
followed by the unreachable records in reverse input order. -/
theorem dumpRecords_eq (input : List (List ℚ × Bool)) :
    dumpRecords input
      = (input.filter fun sb => sb.2).map toRecord
        ++ ((input.filter fun sb => !sb.2).map toRecord).reverse := by
  have h := dumpLoop_append input [] []
  simp only [List.map_nil, List.nil_append, List.append_nil, List.length_nil] at h
  unfold dumpRecords
  rw [h, List.filterMap_map]
  simp

/-- Records built from reachable samples carry a `true` flag. -/
theorem mem_reachable_part_flag {input : List (List ℚ × Bool)} {r : RmapSample}
    (h : r ∈ (input.filter fun sb => sb.2).map toRecord) : r.is_reachable = true := by
  obtain ⟨sb, hsb, rfl⟩ := List.mem_map.mp h
  have := (List.mem_filter.mp hsb).2
  simpa [toRecord] using this

/-- Records built from unreachable samples carry a `false` flag. -/
theorem mem_unreachable_part_flag {input : List (List ℚ × Bool)} {r : RmapSample}
    (h : r ∈ ((input.filter fun sb => !sb.2).map toRecord).reverse) :
    r.is_reachable = false := by
  rw [List.mem_reverse] at h
  obtain ⟨sb, hsb, rfl⟩ := List.mem_map.mp h
  have := (List.mem_filter.mp hsb).2
  simpa [toRecord] using this

/-- C7: in the record list persisted by `dumpSampleSet`, every record with a
`true` reachability flag has a smaller index than every record with a `false`
flag. -/
theorem claim7_reachable_before_unreachable (input : List (List ℚ × Bool)) (p q : ℕ)
    (hp : p < (dumpRecords input).length) (hq : q < (dumpRecords input).length)
    (hrp : ((dumpRecords input).getD p ⟨[], false⟩).is_reachable = true)
    (hrq : ((dumpRecords input).getD q ⟨[], false⟩).is_reachable = false) :
    p < q := by
  rw [dumpRecords_eq] at hp hq hrp hrq
  set R := (input.filter fun sb => sb.2).map toRecord with hR
  set U := ((input.filter fun sb => !sb.2).map toRecord).reverse with hU
  rw [List.length_append] at hp hq
  by_contra hle
  push_neg at hle
  rcases Nat.lt_or_ge p R.length with h1 | h1
  · have hq' : q < R.length := lt_of_le_of_lt hle h1
    rw [getD_append_lt _ hq'] at hrq
    have hmem : R.getD q (⟨[], false⟩ : RmapSample) ∈ R := getD_mem_of_lt _ hq'
    rw [hR] at hmem
    have := mem_reachable_part_flag hmem
    rw [this] at hrq
    exact absurd hrq (by simp)
  · rw [getD_append_ge _ h1 (by omega)] at hrp
    have hplen : p - R.length < U.length := by omega
    have hmem : U.getD (p - R.length) (⟨[], false⟩ : RmapSample) ∈ U := getD_mem_of_lt _ hplen
    rw [hU] at hmem
    have := mem_unreachable_part_flag hmem
    rw [this] at hrp
    exact absurd hrp (by simp)

/-- Witness for C7 at a concrete two-sample input whose unreachable sample
comes first. -/
theorem claim7_witness :
    ((dumpRecords [([1], false), ([2], true)]).getD 0 (⟨[], false⟩ : RmapSample)).is_reachable
        = true
    ∧ ((dumpRecords [([1], false), ([2], true)]).getD 1 (⟨[], false⟩ : RmapSample)).is_reachable
        = false
    ∧ 0 < 1 := by
  refine ⟨by decide, by decide, ?_⟩
  exact claim7_reachable_before_unreachable [([1], false), ([2], true)] 0 1
    (by decide) (by decide) (by decide) (by decide)

/-! ### The sample-set dump: records and min/max vectors (C10) -/

/-- Folding `min` only lowers the start value. -/
theorem foldl_min_le_init {α : Type} [LinearOrder α] (l : List α) (c : α) :
    l.foldl min c ≤ c := by
  induction l generalizing c with
  | nil => exact le_refl c
  | cons x xs ih => exact le_trans (ih (min c x)) (min_le_left c x)

/-- The fold of `min` is below every list element. -/
theorem foldl_min_le_mem {α : Type} [LinearOrder α] {l : List α} {x : α} (hx : x ∈ l) :
    ∀ c : α, l.foldl min c ≤ x := by
  induction l with
  | nil => cases hx
  | cons y ys ih =>
    intro c
    rcases List.mem_cons.mp hx with rfl | h
    · exact le_trans (foldl_min_le_init ys (min c x)) (min_le_right c x)
    · exact ih h (min c y)

/-- The fold of `min` is the start value or an element of the list. -/
theorem foldl_min_eq_init_or_mem {α : Type} [LinearOrder α] (l : List α) :
    ∀ c : α, l.foldl min c = c ∨ l.foldl min c ∈ l := by
  induction l with
  | nil => exact fun c => Or.inl rfl
  | cons x xs ih =>
    intro c
    rcases ih (min c x) with h | h
    · rcases min_choice c x with hm | hm
      · exact Or.inl (by rw [List.foldl_cons, h, hm])
      · exact Or.inr (by rw [List.foldl_cons, h, hm]; exact List.mem_cons_self x xs)
    · exact Or.inr (List.mem_cons_of_mem x h)

/-- Folding `max` only raises the start value. -/
theorem foldl_max_ge_init {α : Type} [LinearOrder α] (l : List α) (c : α) :
    c ≤ l.foldl max c := by
  induction l generalizing c with
  | nil => exact le_refl c
  | cons x xs ih => exact le_trans (le_max_left c x) (ih (max c x))

/-- The fold of `max` is above every list element. -/
theorem foldl_max_ge_mem {α : Type} [LinearOrder α] {l : List α} {x : α} (hx : x ∈ l) :
    ∀ c : α, x ≤ l.foldl max c := by
  induction l with
  | nil => cases hx
  | cons y ys ih =>
    intro c
    rcases List.mem_cons.mp hx with rfl | h
    · exact le_trans (le_max_right c x) (foldl_max_ge_init ys (max c x))
    · exact ih h (max c y)

/-- The fold of `max` is the start value or an element of the list. -/
theorem foldl_max_eq_init_or_mem {α : Type} [LinearOrder α] (l : List α) :
    ∀ c : α, l.foldl max c = c ∨ l.foldl max c ∈ l := by
  induction l with
  | nil => exact fun c => Or.inl rfl
  | cons x xs ih =>
    intro c
    rcases ih (max c x) with h | h
    · rcases max_choice c x with hm | hm
      · exact Or.inl (by rw [List.foldl_cons, h, hm])
      · exact Or.inr (by rw [List.foldl_cons, h, hm]; exact List.mem_cons_self x xs)
    · exact Or.inr (List.mem_cons_of_mem x h)

/-- Componentwise reading of `cwiseMin`. -/
theorem getD_cwiseMin (a b : List ℚ) (j : ℕ) (ha : j < a.length) (hb : j < b.length) :
    (cwiseMin a b).getD j 0 = min (a.getD j 0) (b.getD j 0) := by
  unfold cwiseMin
  induction a generalizing b j with
  | nil => simp at ha
  | cons x xs ih =>
    cases b with
    | nil => simp at hb
    | cons y ys =>
      cases j with
      | zero => simp
      | succ j =>
        simp only [List.length_cons, Nat.add_lt_add_iff_right] at ha hb
        simpa using ih ys j ha hb

/-- Componentwise reading of `cwiseMax`. -/
theorem getD_cwiseMax (a b : List ℚ) (j : ℕ) (ha : j < a.length) (hb : j < b.length) :
    (cwiseMax a b).getD j 0 = max (a.getD j 0) (b.getD j 0) := by
  unfold cwiseMax
  induction a generalizing b j with
  | nil => simp at ha
  | cons x xs ih =>
    cases b with
    | nil => simp at hb
    | cons y ys =>
      cases j with
      | zero => simp
      | succ j =>
        simp only [List.length_cons, Nat.add_lt_add_iff_right] at ha hb
        simpa using ih ys j ha hb

/-- Component `j` of the `cwiseMin` fold over the samples is the scalar `min`
fold of their components. -/
theorem foldl_cwiseMin_getD (dim j : ℕ) (hj : j < dim) :
    ∀ (input : List (List ℚ × Bool)), (∀ sb ∈ input, sb.1.length = dim) →
      ∀ acc : List ℚ, acc.length = dim →
        (input.foldl (fun a sb => cwiseMin a sb.1) acc).getD j 0
          = (input.map fun sb => sb.1.getD j 0).foldl min (acc.getD j 0) := by
  intro input
  induction input with
  | nil => intro _ acc _; rfl
  | cons sb rest ih =>
    intro hd acc hacc
    have hlen : (cwiseMin acc sb.1).length = dim := by
      have h1 : sb.1.length = dim := hd sb (List.mem_cons_self sb rest)
      simp [cwiseMin, hacc, h1]
    simp only [List.foldl_cons, List.map_cons]
    rw [ih (fun x hx => hd x (List.mem_cons_of_mem sb hx)) (cwiseMin acc sb.1) hlen,
      getD_cwiseMin acc sb.1 j (by omega) (by rw [hd sb (List.mem_cons_self sb rest)]; omega)]

/-- Component `j` of the `cwiseMax` fold over the samples is the scalar `max`
fold of their components. -/
theorem foldl_cwiseMax_getD (dim j : ℕ) (hj : j < dim) :
    ∀ (input : List (List ℚ × Bool)), (∀ sb ∈ input, sb.1.length = dim) →
      ∀ acc : List ℚ, acc.length = dim →
        (input.foldl (fun a sb => cwiseMax a sb.1) acc).getD j 0
          = (input.map fun sb => sb.1.getD j 0).foldl max (acc.getD j 0) := by
  intro input
  induction input with
  | nil => intro _ acc _; rfl
  | cons sb rest ih =>
    intro hd acc hacc
    have hlen : (cwiseMax acc sb.1).length = dim := by
      have h1 : sb.1.length = dim := hd sb (List.mem_cons_self sb rest)
      simp [cwiseMax, hacc, h1]
    simp only [List.foldl_cons, List.map_cons]
    rw [ih (fun x hx => hd x (List.mem_cons_of_mem sb hx)) (cwiseMax acc sb.1) hlen,
      getD_cwiseMax acc sb.1 j (by omega) (by rw [hd sb (List.mem_cons_self sb rest)]; omega)]

/-- Counterexample to C10 as stated: for the single sample `[2e10]` the
persisted min vector holds the sentinel `1e10`, not the componentwise minimum
`2e10` over the input samples. -/
theorem claim10_counterexample :
    sampleSetMin 1 [([(20000000000 : ℚ)], true)] = [(10000000000 : ℚ)]
    ∧ (10000000000 : ℚ) ≠ 20000000000 := by
  constructor
  · decide
  · decide

/-- C10 (amended): `dumpSampleSet` writes exactly one record per input sample
(a permutation of the inputs, each record's position and flag equal to its
source sample's), and the persisted min/max vectors are the componentwise
min/max over the input samples clamped by the sentinels `1e10` / `-1e10`
(below every sample component, above it only at the sentinel, and attained by
some sample unless equal to the sentinel); an empty input yields exactly the
sentinels. -/
theorem claim10_amended (input : List (List ℚ × Bool)) (dim j : ℕ)
    (hd : ∀ sb ∈ input, sb.1.length = dim) (hj : j < dim) :
    (dumpRecords input).Perm (input.map toRecord)
    ∧ ((sampleSetMin dim input).getD j 0 ≤ 10 ^ 10
       ∧ (∀ sb ∈ input, (sampleSetMin dim input).getD j 0 ≤ sb.1.getD j 0)
       ∧ ((sampleSetMin dim input).getD j 0 = 10 ^ 10
          ∨ ∃ sb ∈ input, sb.1.getD j 0 = (sampleSetMin dim input).getD j 0))
    ∧ (-(10 : ℚ) ^ 10 ≤ (sampleSetMax dim input).getD j 0
       ∧ (∀ sb ∈ input, sb.1.getD j 0 ≤ (sampleSetMax dim input).getD j 0)
       ∧ ((sampleSetMax dim input).getD j 0 = -(10 : ℚ) ^ 10
          ∨ ∃ sb ∈ input, sb.1.getD j 0 = (sampleSetMax dim input).getD j 0))
    ∧ (input = [] →
        sampleSetMin dim input = List.replicate dim ((10 : ℚ) ^ 10)
        ∧ sampleSetMax dim input = List.replicate dim (-((10 : ℚ) ^ 10))) := by
  have hinit : (List.replicate dim ((10 : ℚ) ^ 10)).getD j 0 = (10 : ℚ) ^ 10 := by
    rw [getD_eq_get_of_lt _ (by simpa using hj)]
    exact List.getElem_replicate _ _
  have hinitmax : (List.replicate dim (-((10 : ℚ) ^ 10))).getD j 0 = -((10 : ℚ) ^ 10) := by
    rw [getD_eq_get_of_lt _ (by simpa using hj)]
    exact List.getElem_replicate _ _
  have hmin : (sampleSetMin dim input).getD j 0
      = (input.map fun sb => sb.1.getD j 0).foldl min ((10 : ℚ) ^ 10) := by
    unfold sampleSetMin
    rw [foldl_cwiseMin_getD dim j hj input hd _ (by simp), hinit]
  have hmax : (sampleSetMax dim input).getD j 0
      = (input.map fun sb => sb.1.getD j 0).foldl max (-((10 : ℚ) ^ 10)) := by
    unfold sampleSetMax
    rw [foldl_cwiseMax_getD dim j hj input hd _ (by simp), hinitmax]
  refine ⟨?_, ⟨?_, ?_, ?_⟩, ⟨?_, ?_, ?_⟩, ?_⟩
  · rw [dumpRecords_eq]
    refine (List.Perm.append_left _ (List.reverse_perm _)).trans ?_
    rw [← List.map_append]
    exact (List.filter_append_perm (fun sb => sb.2) input).map toRecord
  · rw [hmin]
    exact foldl_min_le_init _ _
  · intro sb hsb
    rw [hmin]
    exact foldl_min_le_mem (List.mem_map_of_mem _ hsb) _
  · rw [hmin]
    rcases foldl_min_eq_init_or_mem (input.map fun sb => sb.1.getD j 0) ((10 : ℚ) ^ 10) with h | h
    · exact Or.inl h
    · obtain ⟨sb, hsb, heq⟩ := List.mem_map.mp h
      exact Or.inr ⟨sb, hsb, heq⟩
  · rw [hmax]
    exact foldl_max_ge_init _ _
  · intro sb hsb
    rw [hmax]
    exact foldl_max_ge_mem (List.mem_map_of_mem (fun sb => sb.1.getD j 0) hsb) _
  · rw [hmax]
    rcases foldl_max_eq_init_or_mem (input.map fun sb => sb.1.getD j 0) (-((10 : ℚ) ^ 10)) with h | h
    · exact Or.inl h
    · obtain ⟨sb, hsb, heq⟩ := List.mem_map.mp h
      exact Or.inr ⟨sb, hsb, heq⟩
  · rintro rfl
    exact ⟨rfl, rfl⟩

/-- Witness for C10 at a concrete two-sample input of dimension 2. -/
theorem claim10_witness :
    (dumpRecords [([1, 5], true), ([0, 7], false)]).Perm
      ([([1, 5], true), ([0, 7], false)].map toRecord)
    ∧ (sampleSetMin 2 [([1, 5], true), ([0, 7], false)]).getD 0 0 ≤ 10 ^ 10 :=
  ⟨(claim10_amended [([1, 5], true), ([0, 7], false)] 2 0 (by decide) (by decide)).1,
    (claim10_amended [([1, 5], true), ([0, 7], false)] 2 0 (by decide) (by decide)).2.1.1⟩

/-! ### The adjacent-regularization matrix (C2) -/

/-- An in-block flat index determines its block index. -/
theorem block_range_iff {d a : ℕ} (ha : a < d) (off i i' : ℕ) :
    (off + i' * d ≤ off + i * d + a ∧ off + i * d + a < off + i' * d + d) ↔ i = i' := by
  have h1 : (i + 1) * d = i * d + d := Nat.succ_mul i d
  have h2 : (i' + 1) * d = i' * d + d := Nat.succ_mul i' d
  constructor
  · rintro ⟨hl, hr⟩
    by_contra hne
    rcases Nat.lt_or_ge i i' with h | h
    · have hmul : (i + 1) * d ≤ i' * d := Nat.mul_le_mul_right d h
      omega
    · have h' : i' < i := by omega
      have hmul : (i' + 1) * d ≤ i * d := Nat.mul_le_mul_right d h'
      omega
  · rintro rfl
    omega

/-- Evaluating a block-diagonal overwrite at a flat index of block `(i, j)`
with in-block offsets `(a, b)`. -/
theorem blockDiagSetConst_apply {d a b : ℕ} (ha : a < d) (hb : b < d)
    (M : Mat) (v : ℚ) (off i j i' j' : ℕ) :
    blockDiagSetConst M (off + i' * d) (off + j' * d) d v (off + i * d + a) (off + j * d + b)
      = if i = i' ∧ j = j' ∧ a = b then v
        else M (off + i * d + a) (off + j * d + b) := by
  unfold blockDiagSetConst
  by_cases h : i = i' ∧ j = j' ∧ a = b
  · obtain ⟨rfl, rfl, rfl⟩ := h
    rw [if_pos (by omega), if_pos ⟨rfl, rfl, rfl⟩]
  · have hC : ¬(off + i' * d ≤ off + i * d + a ∧ off + i * d + a < off + i' * d + d
        ∧ off + j' * d ≤ off + j * d + b ∧ off + j * d + b < off + j' * d + d
        ∧ off + i * d + a - (off + i' * d) = off + j * d + b - (off + j' * d)) := by
      rintro ⟨h1', h2', h3', h4', h5'⟩
      have hi : i = i' := (block_range_iff ha off i i').mp ⟨h1', h2'⟩
      have hj : j = j' := (block_range_iff hb off j j').mp ⟨h3', h4'⟩
      subst hi
      subst hj
      exact h ⟨rfl, rfl, by omega⟩
    rw [if_neg hC, if_neg h]

/-- A block-diagonal overwrite leaves entries left of or above the block
untouched. -/
theorem blockDiagSetConst_untouched {M : Mat} {r c d : ℕ} {v : ℚ} {p q : ℕ}
    (h : p < r ∨ q < c) : blockDiagSetConst M r c d v p q = M p q := by
  unfold blockDiagSetConst
  rw [if_neg]
  rintro ⟨h1, _, h2, _, _⟩
  omega

/-- One adjacent-regularization iteration, with the `let` spelled out. -/
theorem adjacentRegStep_eq (N d : ℕ) (w : ℚ) (off k : ℕ) (M : Mat) :
    adjacentRegStep N d w off k M
      = if k = N - 1 then
          blockDiagSetConst M (off + k * d) (off + k * d) d
            ((if k = N - 1 then (1 : ℚ) else 2) * w)
        else
          blockDiagSetConst
            (blockDiagSetConst
              (blockDiagSetConst M (off + k * d) (off + k * d) d
                ((if k = N - 1 then (1 : ℚ) else 2) * w))
              (off + (k + 1) * d) (off + k * d) d (-w))
            (off + k * d) (off + (k + 1) * d) d (-w) := rfl

/-- The adjacent-regularization loop never writes entries left of or above its
block offset. -/
theorem adjacentRegAux_untouched (N d : ℕ) (w : ℚ) (off p q : ℕ) (h : p < off ∨ q < off) :
    ∀ (m : ℕ) (M : Mat), adjacentRegAux N d w off m M p q = M p q := by
  intro m
  induction m with
  | zero => intro M; rfl
  | succ m ih =>
    intro M
    show adjacentRegStep N d w off m (adjacentRegAux N d w off m M) p q = M p q
    rw [adjacentRegStep_eq]
    by_cases hm : m = N - 1
    · rw [if_pos hm, blockDiagSetConst_untouched (by omega)]
      exact ih M
    · rw [if_neg hm, blockDiagSetConst_untouched (by omega),
        blockDiagSetConst_untouched (by omega), blockDiagSetConst_untouched (by omega)]
      exact ih M

/-- Closed form of the adjacent-regularization loop after `m` iterations:
`(i == N-1 ? 1 : 2) * w` on processed diagonal blocks, `-w` on processed
neighbor blocks, the initial matrix elsewhere. -/
theorem adjacentRegAux_apply (N d : ℕ) (w : ℚ) (off : ℕ) {a b : ℕ} (ha : a < d) (hb : b < d)
    (i j : ℕ) :
    ∀ (m : ℕ) (M : Mat),
      adjacentRegAux N d w off m M (off + i * d + a) (off + j * d + b)
        = if i = j ∧ a = b ∧ i < m then (if i = N - 1 then (1 : ℚ) else 2) * w
          else if i = j + 1 ∧ a = b ∧ j < m ∧ j ≠ N - 1 then -w
          else if j = i + 1 ∧ a = b ∧ i < m ∧ i ≠ N - 1 then -w
          else M (off + i * d + a) (off + j * d + b) := by
  intro m
  induction m with
  | zero =>
    intro M
    simp [adjacentRegAux]
  | succ m ih =>
    intro M
    show adjacentRegStep N d w off m (adjacentRegAux N d w off m M) _ _ = _
    rw [adjacentRegStep_eq]
    by_cases hm : m = N - 1
    · rw [if_pos hm, blockDiagSetConst_apply ha hb, ih M]
      split_ifs <;> first | rfl | omega | (exfalso; omega)
    · rw [if_neg hm, blockDiagSetConst_apply ha hb, blockDiagSetConst_apply ha hb,
        blockDiagSetConst_apply ha hb, ih M]
      split_ifs <;> first | rfl | omega | (exfalso; omega)

/-- Closed form of the footstep planner's `adjacent_reg_mat_`. -/
theorem footstepAdjacentRegMat_apply (N d : ℕ) (w : ℚ) {i j a b : ℕ}
    (ha : a < d) (hb : b < d) (hi : i < N) (hj : j < N) :
    footstepAdjacentRegMat N d w (i * d + a) (j * d + b) = chainEntryFormula N w i j a b := by
  have h := adjacentRegAux_apply N d w 0 ha hb i j N zeroMat
  simp only [Nat.zero_add] at h
  unfold footstepAdjacentRegMat
  rw [h]
  unfold chainEntryFormula zeroMat
  split_ifs <;> first | rfl | omega | (exfalso; omega)

/-- Foot-chain entries of the locomanipulation planner's
`adjacent_reg_mat_`. -/
theorem locomanipAdjacentRegMat_foot (L d : ℕ) (w : ℚ) {i j a b : ℕ}
    (ha : a < d) (hb : b < d) (hi : i < L) (hj : j < L) :
    locomanipAdjacentRegMat L d w (i * d + a) (j * d + b) = chainEntryFormula L w i j a b := by
  unfold locomanipAdjacentRegMat
  have hlt : i * d + a < L * d := by
    have hm : (i + 1) * d ≤ L * d := Nat.mul_le_mul_right d hi
    have hs : (i + 1) * d = i * d + d := Nat.succ_mul i d
    omega
  rw [adjacentRegAux_untouched L d w (L * d) _ _ (Or.inl hlt)]
  exact footstepAdjacentRegMat_apply L d w ha hb hi hj

/-- Hand-chain entries of the locomanipulation planner's
`adjacent_reg_mat_`. -/
theorem locomanipAdjacentRegMat_hand (L d : ℕ) (w : ℚ) {i j a b : ℕ}
    (ha : a < d) (hb : b < d) (hi : i < L) (hj : j < L) :
    locomanipAdjacentRegMat L d w (L * d + i * d + a) (L * d + j * d + b)
      = chainEntryFormula L w i j a b := by
  unfold locomanipAdjacentRegMat
  rw [adjacentRegAux_apply L d w (L * d) ha hb i j L _]
  have hfoot : adjacentRegAux L d w 0 L zeroMat (L * d + i * d + a) (L * d + j * d + b)
      = 0 := by
    have h := adjacentRegAux_apply L d w 0 ha hb (L + i) (L + j) L zeroMat
    simp only [Nat.zero_add, Nat.add_mul] at h
    rw [h]
    unfold zeroMat
    split_ifs <;> first | rfl | omega | (exfalso; omega)
  rw [hfoot]
  unfold chainEntryFormula
  split_ifs <;> first | rfl | omega | (exfalso; omega)

/-- Cross foot/hand blocks of the locomanipulation planner's
`adjacent_reg_mat_` are zero. -/
theorem locomanipAdjacentRegMat_cross (L d : ℕ) (w : ℚ) {i j a b : ℕ}
    (ha : a < d) (hb : b < d) (hi : i < L) (hj : j < L) :
    locomanipAdjacentRegMat L d w (i * d + a) (L * d + j * d + b) = 0
    ∧ locomanipAdjacentRegMat L d w (L * d + i * d + a) (j * d + b) = 0 := by
  have hmul1 : (i + 1) * d ≤ L * d := Nat.mul_le_mul_right d hi
  have hmul2 : (j + 1) * d ≤ L * d := Nat.mul_le_mul_right d hj
  have hsi : (i + 1) * d = i * d + d := Nat.succ_mul i d
  have hsj : (j + 1) * d = j * d + d := Nat.succ_mul j d
  constructor
  · unfold locomanipAdjacentRegMat
    rw [adjacentRegAux_untouched L d w (L * d) _ _ (Or.inl (by omega))]
    have h := adjacentRegAux_apply L d w 0 ha hb i (L + j) L zeroMat
    simp only [Nat.zero_add, Nat.add_mul] at h
    rw [h]
    unfold zeroMat
    split_ifs <;> first | rfl | omega | (exfalso; omega)
  · unfold locomanipAdjacentRegMat
    rw [adjacentRegAux_untouched L d w (L * d) _ _ (Or.inr (by omega))]
    have h := adjacentRegAux_apply L d w 0 ha hb (L + i) j L zeroMat
    simp only [Nat.zero_add, Nat.add_mul] at h
    rw [h]
    unfold zeroMat
    split_ifs <;> first | rfl | omega | (exfalso; omega)

/-- Counterexample to C2 as stated: for horizon `N = 2`, `vel_dim = 1` and
weight `w = 1` the first diagonal block of the footstep planner's
adjacency-regularization matrix holds `2` (that is, `2w`), not the claimed
`w = 1`. -/
theorem claim2_counterexample :
    footstepAdjacentRegMat 2 1 1 0 0 = 2 ∧ (2 : ℚ) ≠ 1 := by
  constructor
  · have h := footstepAdjacentRegMat_apply 2 1 1 (a := 0) (b := 0) (i := 0) (j := 0)
      (by norm_num) (by norm_num) (by norm_num) (by norm_num)
    simp only [Nat.zero_mul, Nat.add_zero] at h
    rw [h]
    norm_num [chainEntryFormula]
  · norm_num

/-- C2 (amended): each adjacency-regularization chain is block-tridiagonal
with `2w·I` on every diagonal block except the last one, which gets `w·I`
(the first block therefore also gets `2w·I` whenever `N ≥ 2`), and `-w·I` on
the off-diagonal neighbor blocks; all other blocks are zero.  The footstep
matrix is one such chain; the locomanipulation matrix consists of two
independent such chains (feet, then hand) with zero cross blocks. -/
theorem claim2_amended (N L d : ℕ) (w : ℚ) (i j a b : ℕ)
    (ha : a < d) (hb : b < d) :
    (i < N → j < N →
      footstepAdjacentRegMat N d w (i * d + a) (j * d + b) = chainEntryFormula N w i j a b)
    ∧ (i < L → j < L →
        locomanipAdjacentRegMat L d w (i * d + a) (j * d + b) = chainEntryFormula L w i j a b
        ∧ locomanipAdjacentRegMat L d w (L * d + i * d + a) (L * d + j * d + b)
            = chainEntryFormula L w i j a b
        ∧ locomanipAdjacentRegMat L d w (i * d + a) (L * d + j * d + b) = 0
        ∧ locomanipAdjacentRegMat L d w (L * d + i * d + a) (j * d + b) = 0) := by
  constructor
  · intro hi hj
    exact footstepAdjacentRegMat_apply N d w ha hb hi hj
  · intro hi hj
    exact ⟨locomanipAdjacentRegMat_foot L d w ha hb hi hj,
      locomanipAdjacentRegMat_hand L d w ha hb hi hj,
      (locomanipAdjacentRegMat_cross L d w ha hb hi hj).1,
      (locomanipAdjacentRegMat_cross L d w ha hb hi hj).2⟩

/-- Witness for C2 at `N = 3`, `L = 2`, `d = 1`, `w = 5`: an interior
diagonal entry, an off-diagonal entry, and a cross entry. -/
theorem claim2_witness :
    footstepAdjacentRegMat 3 1 5 (0 * 1 + 0) (0 * 1 + 0) = chainEntryFormula 3 5 0 0 0 0
    ∧ locomanipAdjacentRegMat 2 1 5 (0 * 1 + 0) (1 * 1 + 0) = chainEntryFormula 2 5 0 1 0 0
    ∧ locomanipAdjacentRegMat 2 1 5 (0 * 1 + 0) (2 * 1 + 1 * 1 + 0) = 0 :=
  ⟨(claim2_amended 3 2 1 5 0 0 0 0 (by decide) (by decide)).1 (by decide) (by decide),
    ((claim2_amended 2 2 1 5 0 1 0 0 (by decide) (by decide)).2 (by decide) (by decide)).1,
    ((claim2_amended 3 2 1 5 0 1 0 0 (by decide) (by decide)).2 (by decide) (by decide)).2.2.1⟩

/-! ### QP variable layout and box bounds (C3) -/

/-- Counterexample to C3 as stated: the footstep planner with one R2 step has
2 QP variables and 1 inequality constraint, not the claimed
`velocity variables + one slack per inequality = 3`; its variable vector
contains no slack variables at all. -/
theorem claim3_counterexample :
    (footstepQpCoeff ctxFootstepFail).dim_var = 2
    ∧ (footstepQpCoeff ctxFootstepFail).dim_ineq = 1
    ∧ ctxFootstepFail.vel_dim * ctxFootstepFail.footstep_num = 2
    ∧ (footstepQpCoeff ctxFootstepFail).dim_var
        ≠ ctxFootstepFail.vel_dim * ctxFootstepFail.footstep_num
          + (footstepQpCoeff ctxFootstepFail).dim_ineq := by
  refine ⟨rfl, rfl, rfl, ?_⟩
  decide

/-- C3 (amended): the locomanipulation planner's `setup()` fixes the variable
count to one velocity block per trajectory waypoint plus one slack variable
per inequality constraint, with componentwise symmetric bounds
`±delta_config_limit` on the velocity variables and `±1e10` on the slacks;
the footstep planner's `setup()` fixes the count to one velocity block per
waypoint only — it allocates no slack variables — and sets the bounds
`±delta_config_limit` on its whole variable vector. -/
theorem claim3_amended {S₁ S₂ : Type} (ctxF : FootstepCtx S₁) (ctxL : LocomanipCtx S₂) :
    ((footstepQpCoeff ctxF).dim_var = ctxF.vel_dim * ctxF.footstep_num
      ∧ (footstepQpCoeff ctxF).dim_ineq = ctxF.footstep_num
      ∧ (∀ j, (footstepQpCoeff ctxF).x_min j = -ctxF.delta_config_limit
          ∧ (footstepQpCoeff ctxF).x_max j = ctxF.delta_config_limit))
    ∧ ((locomanipQpCoeff ctxL).dim_var
          = 2 * ctxL.motion_len * ctxL.vel_dim + (locomanipQpCoeff ctxL).dim_ineq
      ∧ (locomanipQpCoeff ctxL).dim_ineq = 3 * ctxL.motion_len - 1
      ∧ (∀ j, j < locomanipConfigDim ctxL →
          (locomanipQpCoeff ctxL).x_min j = -ctxL.delta_config_limit
          ∧ (locomanipQpCoeff ctxL).x_max j = ctxL.delta_config_limit)
      ∧ (∀ j, locomanipConfigDim ctxL ≤ j →
          (locomanipQpCoeff ctxL).x_min j = -(10 ^ 10)
          ∧ (locomanipQpCoeff ctxL).x_max j = 10 ^ 10)) := by
  refine ⟨⟨rfl, rfl, fun j => ⟨rfl, rfl⟩⟩, ⟨rfl, rfl, ?_, ?_⟩⟩
  · intro j hj
    constructor
    · show (if j < locomanipConfigDim ctxL then -ctxL.delta_config_limit else -(10 ^ 10))
        = -ctxL.delta_config_limit
      rw [if_pos hj]
    · show (if j < locomanipConfigDim ctxL then ctxL.delta_config_limit else (10 ^ 10))
        = ctxL.delta_config_limit
      rw [if_pos hj]
  · intro j hj
    constructor
    · show (if j < locomanipConfigDim ctxL then -ctxL.delta_config_limit else -(10 ^ 10))
        = -(10 ^ 10)
      rw [if_neg (by omega)]
    · show (if j < locomanipConfigDim ctxL then ctxL.delta_config_limit else (10 ^ 10))
        = (10 ^ 10)
      rw [if_neg (by omega)]

/-- Witness for C3 at the concrete footstep and locomanipulation contexts. -/
theorem claim3_witness :
    (footstepQpCoeff ctxFootstepFail).x_min 0 = -ctxFootstepFail.delta_config_limit
    ∧ (locomanipQpCoeff ctxLocomanipFail).x_min 4 = -(10 ^ 10)
    ∧ (locomanipQpCoeff ctxLocomanipFail).x_max 0 = ctxLocomanipFail.delta_config_limit :=
  ⟨((claim3_amended ctxFootstepFail ctxLocomanipFail).1.2.2 0).1,
    ((claim3_amended ctxFootstepFail ctxLocomanipFail).2.2.2.2 4 (by decide)).1,
    ((claim3_amended ctxFootstepFail ctxLocomanipFail).2.2.2.1 0 (by decide)).2⟩

/-! ### The footstep planner's objective (C5) -/

/-- C5: in every `runOnce` of the footstep planner, `lambda` equals the
squared norm of the target error plus `epsilon = 1e-3`, the objective vector
before the adjacency term holds the target error on the final velocity block
and zeros elsewhere, and the objective-matrix diagonal before the adjacency
term equals `lambda` on all non-final velocity blocks and `1 + lambda` on the
final block; the full objective data then adds the adjacency-regularization
term. -/
theorem claim5_footstep_objective {S : Type} (ctx : FootstepCtx S)
    (hN : 1 ≤ ctx.footstep_num) (hd : 1 ≤ ctx.vel_dim) :
    footstepLambda ctx
        = (∑ k ∈ Finset.range ctx.vel_dim,
            (ctx.sampleError ctx.target_sample
              (ctx.current_sample_seq.getD (ctx.footstep_num - 1) ctx.identity_sample) k) ^ 2)
          + 1 / 1000
    ∧ (∀ t, t < ctx.vel_dim →
        footstepObjVecBase ctx (footstepDimVar ctx - ctx.vel_dim + t)
          = ctx.sampleError ctx.target_sample
              (ctx.current_sample_seq.getD (ctx.footstep_num - 1) ctx.identity_sample) t)
    ∧ (∀ j, j < footstepDimVar ctx - ctx.vel_dim → footstepObjVecBase ctx j = 0)
    ∧ (∀ j, j < footstepDimVar ctx - ctx.vel_dim →
        footstepObjMatPre ctx j j = footstepLambda ctx)
    ∧ (∀ j, footstepDimVar ctx - ctx.vel_dim ≤ j → j < footstepDimVar ctx →
        footstepObjMatPre ctx j j = 1 + footstepLambda ctx)
    ∧ (∀ p q, p ≠ q → footstepObjMatPre ctx p q = 0)
    ∧ (∀ p q, footstepObjMatFull ctx p q
        = footstepObjMatPre ctx p q
          + footstepAdjacentRegMat ctx.footstep_num ctx.vel_dim ctx.adjacent_reg_weight p q) := by
  have hdD : ctx.vel_dim ≤ footstepDimVar ctx := by
    have h := Nat.mul_le_mul_left ctx.vel_dim hN
    simpa [footstepDimVar] using h
  have htail : ∀ t, t < ctx.vel_dim →
      footstepObjVecBase ctx (footstepDimVar ctx - ctx.vel_dim + t)
        = ctx.sampleError ctx.target_sample
            (ctx.current_sample_seq.getD (ctx.footstep_num - 1) ctx.identity_sample) t := by
    intro t ht
    unfold footstepObjVecBase
    rw [if_pos ⟨by omega, by omega⟩]
    have hidx : footstepDimVar ctx - ctx.vel_dim + t - (footstepDimVar ctx - ctx.vel_dim) = t := by
      omega
    rw [hidx]
  have hzero : ∀ j, j < footstepDimVar ctx - ctx.vel_dim → footstepObjVecBase ctx j = 0 := by
    intro j hj
    unfold footstepObjVecBase
    rw [if_neg (by rintro ⟨h1, _⟩; omega)]
  refine ⟨?_, htail, hzero, ?_, ?_, ?_, fun p q => rfl⟩
  · unfold footstepLambda
    congr 1
    rw [Finset.range_eq_Ico,
      ← Finset.sum_Ico_consecutive _ (Nat.zero_le (footstepDimVar ctx - ctx.vel_dim))
        (by omega : footstepDimVar ctx - ctx.vel_dim ≤ footstepDimVar ctx)]
    have h1 : ∑ j ∈ Finset.Ico 0 (footstepDimVar ctx - ctx.vel_dim),
        footstepObjVecBase ctx j ^ 2 = 0 := by
      apply Finset.sum_eq_zero
      intro j hj
      rw [hzero j (Finset.mem_Ico.mp hj).2]
      ring
    rw [h1, zero_add, Finset.sum_Ico_eq_sum_range]
    have hlen : footstepDimVar ctx - (footstepDimVar ctx - ctx.vel_dim) = ctx.vel_dim := by
      omega
    rw [hlen, ← Finset.range_eq_Ico]
    apply Finset.sum_congr rfl
    intro t ht
    rw [htail t (Finset.mem_range.mp ht)]
  · intro j hj
    unfold footstepObjMatPre footstepObjMatDiagTail
    rw [if_pos ⟨rfl, by omega⟩, if_neg (by rintro ⟨_, h1, _⟩; omega), zero_add]
  · intro j hj1 hj2
    unfold footstepObjMatPre footstepObjMatDiagTail
    rw [if_pos ⟨rfl, hj2⟩, if_pos ⟨rfl, hj1, hj2⟩]
  · intro p q hpq
    unfold footstepObjMatPre footstepObjMatDiagTail
    rw [if_neg (by rintro ⟨h1, _⟩; exact hpq h1), if_neg (by rintro ⟨h1, _⟩; exact hpq h1)]

/-- Witness for C5 at the concrete R2 footstep context (one step, velocity
dimension 2, so the single velocity block is the final one). -/
theorem claim5_witness :
    footstepLambda ctxFootstepFail
        = (∑ k ∈ Finset.range 2,
            (ctxFootstepFail.sampleError ctxFootstepFail.target_sample
              (ctxFootstepFail.current_sample_seq.getD 0 ctxFootstepFail.identity_sample) k) ^ 2)
          + 1 / 1000
    ∧ footstepObjMatPre ctxFootstepFail 0 0 = 1 + footstepLambda ctxFootstepFail :=
  ⟨(claim5_footstep_objective ctxFootstepFail (by decide) (by decide)).1,
    (claim5_footstep_objective ctxFootstepFail (by decide) (by decide)).2.2.2.2.1 0
      (by decide) (by decide)⟩

/-! ### Solver failure handling in `runOnce` (C1) -/

/-- Reading every position of a list through `getD` reproduces the list. -/
theorem range_map_getD {α : Type} (l : List α) (dflt : α) :
    (List.range l.length).map (fun i => l.getD i dflt) = l := by
  apply List.ext_getElem
  · simp
  · intro n h1 h2
    simp only [List.getElem_map, List.getElem_range]
    rw [getD_eq_get_of_lt dflt h2]

/-- Counterexample to C1 as stated: the footstep planner's `runOnce` ignores
the `solve_failed_` flag, so a failing solver stub that returns a nonzero
vector changes the trajectory. -/
theorem claim1_counterexample :
    (ctxFootstepFail.solver (footstepQpCoeff ctxFootstepFail)).2 = true
    ∧ footstepRunOnce ctxFootstepFail ≠ ctxFootstepFail.current_sample_seq := by
  constructor
  · rfl
  · have hrun : footstepRunOnce ctxFootstepFail = [(1, 1)] := by
      show [ctxFootstepFail.integrateVelToSample
          (ctxFootstepFail.current_sample_seq.getD 0 ctxFootstepFail.identity_sample)
          (fun t => (ctxFootstepFail.solver (footstepQpCoeff ctxFootstepFail)).1 (0 * 2 + t))]
        = [(1, 1)]
      show [integrateVelToSampleR2 (0, 0) (fun _ => 1)] = [(1, 1)]
      unfold integrateVelToSampleR2
      norm_num
    rw [hrun]
    intro h
    have := List.head_eq_of_cons_eq h
    rw [Prod.ext_iff] at this
    exact absurd this.1 (by norm_num)

/-- C1 (amended): the locomanipulation planner's `runOnce` zeroes the
velocity solution when the solver reports failure, leaving every waypoint of
both trajectories unchanged; the footstep planner's `runOnce` integrates the
solver's returned vector regardless of the failure flag, so its trajectory is
unchanged on a failing solve only when the returned vector is zero. -/
theorem claim1_amended {S₁ S₂ : Type} (ctxL : LocomanipCtx S₂) (ctxF : FootstepCtx S₁)
    (hzL : ∀ s, ctxL.integrateVelToSample s zeroVec = s)
    (hzF : ∀ s, ctxF.integrateVelToSample s zeroVec = s)
    (hlenF : ctxF.current_sample_seq.length = ctxF.footstep_num)
    (hlenLf : ctxL.current_foot_sample_seq.length = ctxL.motion_len)
    (hlenLh : ctxL.current_hand_sample_seq.length = ctxL.motion_len) :
    ((ctxL.solver (locomanipQpCoeff ctxL)).2 = true →
      locomanipRunOnce ctxL = (ctxL.current_foot_sample_seq, ctxL.current_hand_sample_seq))
    ∧ (ctxF.solver (footstepQpCoeff ctxF) = (zeroVec, true) →
      footstepRunOnce ctxF = ctxF.current_sample_seq) := by
  have hzv : ∀ c : ℕ → ℕ, (fun t => zeroVec (c t)) = zeroVec := fun c => rfl
  constructor
  · intro hfail
    simp only [locomanipRunOnce, hfail, if_true]
    rw [Prod.ext_iff]
    constructor
    · show (List.range ctxL.motion_len).map
          (fun i => ctxL.integrateVelToSample
            (ctxL.current_foot_sample_seq.getD i ctxL.identity_sample)
            (fun t => zeroVec (i * ctxL.vel_dim + t)))
        = ctxL.current_foot_sample_seq
      simp only [hzv, hzL]
      rw [← hlenLf, range_map_getD]
    · show (List.range ctxL.motion_len).map
          (fun i => ctxL.integrateVelToSample
            (ctxL.current_hand_sample_seq.getD i ctxL.identity_sample)
            (fun t => zeroVec (locomanipHandStartIdx ctxL + i * ctxL.vel_dim + t)))
        = ctxL.current_hand_sample_seq
      simp only [hzv, hzL]
      rw [← hlenLh, range_map_getD]
  · intro hsolve
    simp only [footstepRunOnce, hsolve]
    show (List.range ctxF.footstep_num).map
        (fun i => ctxF.integrateVelToSample
          (ctxF.current_sample_seq.getD i ctxF.identity_sample)
          (fun t => zeroVec (i * ctxF.vel_dim + t)))
      = ctxF.current_sample_seq
    simp only [hzv, hzF]
    rw [← hlenF, range_map_getD]

/-- Witness for C1: the concrete locomanipulation context with a failing
solver keeps both trajectories, and the concrete footstep context whose
failing solver returns zero keeps its trajectory. -/
theorem claim1_witness :
    locomanipRunOnce ctxLocomanipFail
        = (ctxLocomanipFail.current_foot_sample_seq, ctxLocomanipFail.current_hand_sample_seq)
    ∧ footstepRunOnce ctxFootstepFailZero = ctxFootstepFailZero.current_sample_seq :=
  have hz : ∀ s : ℚ × ℚ, integrateVelToSampleR2 s zeroVec = s := by
    intro s
    simp [integrateVelToSampleR2, zeroVec]
  ⟨(claim1_amended ctxLocomanipFail ctxFootstepFailZero hz hz rfl rfl rfl).1 rfl,
    (claim1_amended ctxLocomanipFail ctxFootstepFailZero hz hz rfl rfl rfl).2 rfl⟩

/-! ### The footstep planner's inequality loop (C6) -/

/-- The matrix written by one footstep inequality iteration. -/
theorem footstepIneqStep_mat {S : Type} (ctx : FootstepCtx S) (k : ℕ) (MV : Mat × Vec) :
    (footstepIneqStep ctx k MV).1
      = if k = 0 then
          setRowSegment MV.1 k (k * ctx.vel_dim) ctx.vel_dim
            (negRowMatMul (footstepGrad ctx k) (footstepMatSuc ctx k) ctx.vel_dim)
        else
          setRowSegment
            (setRowSegment MV.1 k (k * ctx.vel_dim) ctx.vel_dim
              (negRowMatMul (footstepGrad ctx k) (footstepMatSuc ctx k) ctx.vel_dim))
            k ((k - 1) * ctx.vel_dim) ctx.vel_dim
            (negRowMatMul (footstepGrad ctx k) (footstepMatPre ctx k) ctx.vel_dim) := by
  simp only [footstepIneqStep]
  by_cases h : k = 0
  · rw [if_pos h, if_pos h]
  · rw [if_neg h, if_neg h]

/-- The vector written by one footstep inequality iteration. -/
theorem footstepIneqStep_vec {S : Type} (ctx : FootstepCtx S) (k : ℕ) (MV : Mat × Vec) :
    (footstepIneqStep ctx k MV).2
      = setVecEntry MV.2 k
          (ctx.calcSVMValue (footstepRelSampleEff ctx k) - ctx.svm_thre) := by
  simp only [footstepIneqStep]
  by_cases h : k = 0
  · rw [if_pos h]
  · rw [if_neg h]

/-- A footstep inequality iteration only writes its own row of the matrix. -/
theorem footstepIneqStep_mat_ne {S : Type} (ctx : FootstepCtx S) (k : ℕ) (MV : Mat × Vec)
    {i : ℕ} (q : ℕ) (h : i ≠ k) :
    (footstepIneqStep ctx k MV).1 i q = MV.1 i q := by
  rw [footstepIneqStep_mat]
  by_cases h0 : k = 0
  · rw [if_pos h0]
    unfold setRowSegment
    rw [if_neg (by rintro ⟨h1, _⟩; exact h h1)]
  · rw [if_neg h0]
    unfold setRowSegment
    rw [if_neg (by rintro ⟨h1, _⟩; exact h h1), if_neg (by rintro ⟨h1, _⟩; exact h h1)]

/-- A footstep inequality iteration only writes its own entry of the
vector. -/
theorem footstepIneqStep_vec_ne {S : Type} (ctx : FootstepCtx S) (k : ℕ) (MV : Mat × Vec)
    {i : ℕ} (h : i ≠ k) :
    (footstepIneqStep ctx k MV).2 i = MV.2 i := by
  rw [footstepIneqStep_vec]
  unfold setVecEntry
  rw [if_neg h]

/-- Rows not yet processed by the footstep inequality loop are still zero. -/
theorem footstepIneqAux_mat_ge {S : Type} (ctx : FootstepCtx S) (i q : ℕ) :
    ∀ m, m ≤ i → (footstepIneqAux ctx m).1 i q = 0 := by
  intro m
  induction m with
  | zero => intro _; rfl
  | succ m ih =>
    intro hm
    show (footstepIneqStep ctx m (footstepIneqAux ctx m)).1 i q = 0
    rw [footstepIneqStep_mat_ne ctx m _ q (by omega)]
    exact ih (by omega)

/-- Vector entries not yet processed by the footstep inequality loop are
still zero. -/
theorem footstepIneqAux_vec_ge {S : Type} (ctx : FootstepCtx S) (i : ℕ) :
    ∀ m, m ≤ i → (footstepIneqAux ctx m).2 i = 0 := by
  intro m
  induction m with
  | zero => intro _; rfl
  | succ m ih =>
    intro hm
    show (footstepIneqStep ctx m (footstepIneqAux ctx m)).2 i = 0
    rw [footstepIneqStep_vec_ne ctx m _ (by omega)]
    exact ih (by omega)

/-- A processed row of the footstep inequality loop keeps the value written
at its own iteration. -/
theorem footstepIneqAux_mat_stable {S : Type} (ctx : FootstepCtx S) (i q : ℕ) :
    ∀ m, i < m →
      (footstepIneqAux ctx m).1 i q
        = (footstepIneqStep ctx i (footstepIneqAux ctx i)).1 i q := by
  intro m
  induction m with
  | zero => intro h; exact absurd h (Nat.not_lt_zero i)
  | succ m ih =>
    intro hm
    by_cases he : i = m
    · subst he; rfl
    · show (footstepIneqStep ctx m (footstepIneqAux ctx m)).1 i q = _
      rw [footstepIneqStep_mat_ne ctx m _ q he]
      exact ih (by omega)

/-- A processed entry of the footstep inequality vector keeps the value
written at its own iteration. -/
theorem footstepIneqAux_vec_stable {S : Type} (ctx : FootstepCtx S) (i : ℕ) :
    ∀ m, i < m →
      (footstepIneqAux ctx m).2 i
        = (footstepIneqStep ctx i (footstepIneqAux ctx i)).2 i := by
  intro m
  induction m with
  | zero => intro h; exact absurd h (Nat.not_lt_zero i)
  | succ m ih =>
    intro hm
    by_cases he : i = m
    · subst he; rfl
    · show (footstepIneqStep ctx m (footstepIneqAux ctx m)).2 i = _
      rw [footstepIneqStep_vec_ne ctx m _ he]
      exact ih (by omega)

/-- The inequality value of row `i` after the footstep loop. -/
theorem footstepIneqVec_apply {S : Type} (ctx : FootstepCtx S) {i : ℕ}
    (hi : i < ctx.footstep_num) :
    footstepIneqVec ctx i
      = ctx.calcSVMValue (footstepRelSampleEff ctx i) - ctx.svm_thre := by
  unfold footstepIneqVec
  rw [footstepIneqAux_vec_stable ctx i ctx.footstep_num hi, footstepIneqStep_vec]
  unfold setVecEntry
  rw [if_pos rfl]

/-- The successor velocity block of row `i` after the footstep loop. -/
theorem footstepIneqMat_suc_apply {S : Type} (ctx : FootstepCtx S) {i t : ℕ}
    (hi : i < ctx.footstep_num) (ht : t < ctx.vel_dim) :
    footstepIneqMat ctx i (i * ctx.vel_dim + t)
      = negRowMatMul (footstepGrad ctx i) (footstepMatSuc ctx i) ctx.vel_dim t := by
  unfold footstepIneqMat
  rw [footstepIneqAux_mat_stable ctx i _ ctx.footstep_num hi, footstepIneqStep_mat]
  have hidx : i * ctx.vel_dim + t - i * ctx.vel_dim = t := by omega
  by_cases h0 : i = 0
  · rw [if_pos h0]
    unfold setRowSegment
    rw [if_pos ⟨rfl, by omega, by omega⟩, hidx]
  · rw [if_neg h0]
    have hkey : (i - 1) * ctx.vel_dim + ctx.vel_dim = i * ctx.vel_dim := by
      have h1 : (i - 1 + 1) * ctx.vel_dim = (i - 1) * ctx.vel_dim + ctx.vel_dim :=
        Nat.succ_mul _ _
      have h2 : i - 1 + 1 = i := by omega
      rw [h2] at h1
      omega
    unfold setRowSegment
    rw [if_neg (by rintro ⟨_, _, hlt⟩; omega), if_pos ⟨rfl, by omega, by omega⟩, hidx]

/-- The predecessor velocity block of row `i ≥ 1` after the footstep loop. -/
theorem footstepIneqMat_pre_apply {S : Type} (ctx : FootstepCtx S) {i t : ℕ}
    (hi : i < ctx.footstep_num) (h1 : 1 ≤ i) (ht : t < ctx.vel_dim) :
    footstepIneqMat ctx i ((i - 1) * ctx.vel_dim + t)
      = negRowMatMul (footstepGrad ctx i) (footstepMatPre ctx i) ctx.vel_dim t := by
  unfold footstepIneqMat
  rw [footstepIneqAux_mat_stable ctx i _ ctx.footstep_num hi, footstepIneqStep_mat,
    if_neg (by omega)]
  have hidx : (i - 1) * ctx.vel_dim + t - (i - 1) * ctx.vel_dim = t := by omega
  unfold setRowSegment
  rw [if_pos ⟨rfl, by omega, by omega⟩, hidx]

/-- C6: in the alternating-stance SE2 instantiation of the footstep planner,
every odd inequality row is built from the mirrored quantities — the relative
sample with its last two components negated, and the two relative-velocity
Jacobians with their bottom two rows negated — for the SVM value, the SVM
gradient, and both velocity blocks of the row; even rows are built from the
unmirrored quantities. -/
theorem claim6_se2_mirroring (ctx : FootstepCtx SE2Sample)
    (hd : ctx.vel_dim = 3) (hma : ctx.mirror_active = true)
    (hms : ctx.mirrorSample = mirrorSE2Sample) (hmv : ctx.mirrorVelMat = negBottomRows2)
    (i : ℕ) (hi : i < ctx.footstep_num) :
    (i % 2 = 1 →
      footstepRelSampleEff ctx i
          = mirrorSE2Sample
              (ctx.relSample (footstepPreSample ctx i) (footstepSucSample ctx i))
        ∧ footstepIneqVec ctx i
            = ctx.calcSVMValue
                (mirrorSE2Sample
                  (ctx.relSample (footstepPreSample ctx i) (footstepSucSample ctx i)))
              - ctx.svm_thre
        ∧ footstepGrad ctx i
            = ctx.calcSVMGrad
                (mirrorSE2Sample
                  (ctx.relSample (footstepPreSample ctx i) (footstepSucSample ctx i)))
        ∧ footstepMatSuc ctx i
            = negBottomRows2
                (ctx.relVelToVelMat (footstepPreSample ctx i) (footstepSucSample ctx i) true)
        ∧ footstepMatPre ctx i
            = negBottomRows2
                (ctx.relVelToVelMat (footstepPreSample ctx i) (footstepSucSample ctx i) false)
        ∧ (∀ t, t < 3 →
            footstepIneqMat ctx i (i * 3 + t)
              = negRowMatMul
                  (ctx.calcSVMGrad
                    (mirrorSE2Sample
                      (ctx.relSample (footstepPreSample ctx i) (footstepSucSample ctx i))))
                  (negBottomRows2
                    (ctx.relVelToVelMat (footstepPreSample ctx i) (footstepSucSample ctx i)
                      true)) 3 t
            ∧ footstepIneqMat ctx i ((i - 1) * 3 + t)
              = negRowMatMul
                  (ctx.calcSVMGrad
                    (mirrorSE2Sample
                      (ctx.relSample (footstepPreSample ctx i) (footstepSucSample ctx i))))
                  (negBottomRows2
                    (ctx.relVelToVelMat (footstepPreSample ctx i) (footstepSucSample ctx i)
                      false)) 3 t))
    ∧ (i % 2 = 0 →
      footstepRelSampleEff ctx i
          = ctx.relSample (footstepPreSample ctx i) (footstepSucSample ctx i)
        ∧ footstepIneqVec ctx i
            = ctx.calcSVMValue
                (ctx.relSample (footstepPreSample ctx i) (footstepSucSample ctx i))
              - ctx.svm_thre
        ∧ footstepMatSuc ctx i
            = ctx.relVelToVelMat (footstepPreSample ctx i) (footstepSucSample ctx i) true
        ∧ footstepMatPre ctx i
            = ctx.relVelToVelMat (footstepPreSample ctx i) (footstepSucSample ctx i) false
        ∧ (∀ t, t < 3 →
            footstepIneqMat ctx i (i * 3 + t)
              = negRowMatMul
                  (ctx.calcSVMGrad
                    (ctx.relSample (footstepPreSample ctx i) (footstepSucSample ctx i)))
                  (ctx.relVelToVelMat (footstepPreSample ctx i) (footstepSucSample ctx i)
                    true) 3 t))
    ∧ (∀ s : SE2Sample, mirrorSE2Sample s = (s.1, -s.2.1, -s.2.2))
    ∧ (∀ (M : Mat) (q : ℕ),
        negBottomRows2 M 0 q = M 0 q
        ∧ negBottomRows2 M 1 q = -M 1 q
        ∧ negBottomRows2 M 2 q = -M 2 q) := by
  refine ⟨?_, ?_, fun s => rfl, ?_⟩
  · intro hodd
    have hcond : ctx.mirror_active = true ∧ i % 2 = 1 := ⟨hma, hodd⟩
    have hrel : footstepRelSampleEff ctx i
        = mirrorSE2Sample
            (ctx.relSample (footstepPreSample ctx i) (footstepSucSample ctx i)) := by
      unfold footstepRelSampleEff
      rw [if_pos hcond, hms]
    have hsuc : footstepMatSuc ctx i
        = negBottomRows2
            (ctx.relVelToVelMat (footstepPreSample ctx i) (footstepSucSample ctx i) true) := by
      unfold footstepMatSuc
      rw [if_pos hcond, hmv]
    have hpre : footstepMatPre ctx i
        = negBottomRows2
            (ctx.relVelToVelMat (footstepPreSample ctx i) (footstepSucSample ctx i) false) := by
      unfold footstepMatPre
      rw [if_pos hcond, hmv]
    have hgrad : footstepGrad ctx i
        = ctx.calcSVMGrad
            (mirrorSE2Sample
              (ctx.relSample (footstepPreSample ctx i) (footstepSucSample ctx i))) := by
      unfold footstepGrad
      rw [hrel]
    refine ⟨hrel, ?_, hgrad, hsuc, hpre, ?_⟩
    · rw [footstepIneqVec_apply ctx hi, hrel]
    · intro t ht
      constructor
      · have h := footstepIneqMat_suc_apply ctx hi (t := t) (by omega : t < ctx.vel_dim)
        rw [hd] at h
        rw [h, hgrad, hsuc]
      · have h := footstepIneqMat_pre_apply ctx hi (by omega) (t := t)
          (by omega : t < ctx.vel_dim)
        rw [hd] at h
        rw [h, hgrad, hpre]
  · intro heven
    have hcond : ¬(ctx.mirror_active = true ∧ i % 2 = 1) := by
      rintro ⟨_, h⟩
      omega
    have hrel : footstepRelSampleEff ctx i
        = ctx.relSample (footstepPreSample ctx i) (footstepSucSample ctx i) := by
      unfold footstepRelSampleEff
      rw [if_neg hcond]
    have hsuc : footstepMatSuc ctx i
        = ctx.relVelToVelMat (footstepPreSample ctx i) (footstepSucSample ctx i) true := by
      unfold footstepMatSuc
      rw [if_neg hcond]
    have hpre : footstepMatPre ctx i
        = ctx.relVelToVelMat (footstepPreSample ctx i) (footstepSucSample ctx i) false := by
      unfold footstepMatPre
      rw [if_neg hcond]
    have hgrad : footstepGrad ctx i
        = ctx.calcSVMGrad
            (ctx.relSample (footstepPreSample ctx i) (footstepSucSample ctx i)) := by
      unfold footstepGrad
      rw [hrel]
    refine ⟨hrel, ?_, hsuc, hpre, ?_⟩
    · rw [footstepIneqVec_apply ctx hi, hrel]
    · intro t ht
      have h := footstepIneqMat_suc_apply ctx hi (t := t) (by omega : t < ctx.vel_dim)
      rw [hd] at h
      rw [h, hgrad, hsuc]
  · intro M q
    refine ⟨?_, ?_, ?_⟩
    · unfold negBottomRows2
      rw [if_neg (by omega)]
    · unfold negBottomRows2
      rw [if_pos (Or.inl rfl)]
    · unfold negBottomRows2
      rw [if_pos (Or.inr rfl)]

/-- Witness for C6 at the concrete alternating SE2 context with two steps:
row 1 is odd and mirrored, row 0 is even and unmirrored. -/
theorem claim6_witness :
    footstepRelSampleEff ctxFootstepSE2 1
        = mirrorSE2Sample
            (ctxFootstepSE2.relSample (footstepPreSample ctxFootstepSE2 1)
              (footstepSucSample ctxFootstepSE2 1))
    ∧ footstepRelSampleEff ctxFootstepSE2 0
        = ctxFootstepSE2.relSample (footstepPreSample ctxFootstepSE2 0)
            (footstepSucSample ctxFootstepSE2 0) :=
  ⟨((claim6_se2_mirroring ctxFootstepSE2 rfl rfl rfl rfl 1 (by decide)).1 (by decide)).1,
    ((claim6_se2_mirroring ctxFootstepSE2 rfl rfl rfl rfl 0 (by decide)).2.1 (by decide)).1⟩

/-! ### The locomanipulation planner's inequality layout (C4) -/

/-- Pointwise reading of `setRowSegment`. -/
theorem setRowSegment_apply (M : Mat) (r c0 len : ℕ) (vals : ℕ → ℚ) (p q : ℕ) :
    setRowSegment M r c0 len vals p q
      = if p = r ∧ c0 ≤ q ∧ q < c0 + len then vals (q - c0) else M p q := rfl

/-- Application commutes with an `if` between matrices. -/
theorem mat_ite_apply (c : Prop) [Decidable c] (M1 M2 : Mat) (p q : ℕ) :
    (if c then M1 else M2) p q = if c then M1 p q else M2 p q := by
  split_ifs <;> rfl

/-- The matrix written by one locomanipulation foot-constraint iteration. -/
theorem locomanipIneqStep_mat {S : Type} (ctx : LocomanipCtx S) (k : ℕ) (MV : Mat × Vec) :
    (locomanipIneqStep ctx k MV).1
      = setRowSegment
          (if k = 0 then MV.1
           else setRowSegment MV.1 k ((k - 1) * ctx.vel_dim) ctx.vel_dim
             (negRowMatMul (locomanipGrad ctx k)
               (ctx.relVelToVelMat (locomanipPreFootSample ctx k)
                 (locomanipSucFootSample ctx k) false) ctx.vel_dim))
          k (k * ctx.vel_dim) ctx.vel_dim
          (negRowMatMul (locomanipGrad ctx k)
            (ctx.relVelToVelMat (locomanipPreFootSample ctx k)
              (locomanipSucFootSample ctx k) true) ctx.vel_dim) := rfl

/-- The vector written by one locomanipulation foot-constraint iteration. -/
theorem locomanipIneqStep_vec {S : Type} (ctx : LocomanipCtx S) (k : ℕ) (MV : Mat × Vec) :
    (locomanipIneqStep ctx k MV).2
      = setVecEntry MV.2 k
          (ctx.calcSVMValue (locomanipRowLimb k) (locomanipRelSample ctx k)
            - ctx.svm_thre) := rfl

/-- A locomanipulation iteration only writes its own row of the matrix. -/
theorem locomanipIneqStep_mat_ne {S : Type} (ctx : LocomanipCtx S) (k : ℕ) (MV : Mat × Vec)
    {i : ℕ} (q : ℕ) (h : i ≠ k) :
    (locomanipIneqStep ctx k MV).1 i q = MV.1 i q := by
  rw [locomanipIneqStep_mat, setRowSegment_apply,
    if_neg (by rintro ⟨h1, _⟩; exact h h1), mat_ite_apply]
  by_cases h0 : k = 0
  · rw [if_pos h0]
  · rw [if_neg h0, setRowSegment_apply, if_neg (by rintro ⟨h1, _⟩; exact h h1)]

/-- A locomanipulation iteration only writes its own entry of the vector. -/
theorem locomanipIneqStep_vec_ne {S : Type} (ctx : LocomanipCtx S) (k : ℕ) (MV : Mat × Vec)
    {i : ℕ} (h : i ≠ k) :
    (locomanipIneqStep ctx k MV).2 i = MV.2 i := by
  rw [locomanipIneqStep_vec]
  unfold setVecEntry
  rw [if_neg h]

/-- A locomanipulation iteration writes no column at or beyond the hand-block
start (in particular no slack column). -/
theorem locomanipIneqStep_mat_col_ge {S : Type} (ctx : LocomanipCtx S) (k : ℕ)
    (MV : Mat × Vec) (i q : ℕ) (hk : k < ctx.motion_len)
    (hq : ctx.motion_len * ctx.vel_dim ≤ q) :
    (locomanipIneqStep ctx k MV).1 i q = MV.1 i q := by
  have hmul : (k + 1) * ctx.vel_dim ≤ ctx.motion_len * ctx.vel_dim :=
    Nat.mul_le_mul_right _ hk
  have hs : (k + 1) * ctx.vel_dim = k * ctx.vel_dim + ctx.vel_dim := Nat.succ_mul _ _
  rw [locomanipIneqStep_mat, setRowSegment_apply,
    if_neg (by rintro ⟨_, _, hlt⟩; omega), mat_ite_apply]
  by_cases h0 : k = 0
  · rw [if_pos h0]
  · have hs2 : (k - 1 + 1) * ctx.vel_dim = (k - 1) * ctx.vel_dim + ctx.vel_dim :=
      Nat.succ_mul _ _
    have he : k - 1 + 1 = k := by omega
    rw [he] at hs2
    rw [if_neg h0, setRowSegment_apply, if_neg (by rintro ⟨_, _, hlt⟩; omega)]

/-- Rows not yet processed by the locomanipulation loop are still zero. -/
theorem locomanipIneqAux_mat_ge {S : Type} (ctx : LocomanipCtx S) (i q : ℕ) :
    ∀ m, m ≤ i → (locomanipIneqAux ctx m).1 i q = 0 := by
  intro m
  induction m with
  | zero => intro _; rfl
  | succ m ih =>
    intro hm
    show (locomanipIneqStep ctx m (locomanipIneqAux ctx m)).1 i q = 0
    rw [locomanipIneqStep_mat_ne ctx m _ q (by omega)]
    exact ih (by omega)

/-- Vector entries not yet processed by the locomanipulation loop are still
zero. -/
theorem locomanipIneqAux_vec_ge {S : Type} (ctx : LocomanipCtx S) (i : ℕ) :
    ∀ m, m ≤ i → (locomanipIneqAux ctx m).2 i = 0 := by
  intro m
  induction m with
  | zero => intro _; rfl
  | succ m ih =>
    intro hm
    show (locomanipIneqStep ctx m (locomanipIneqAux ctx m)).2 i = 0
    rw [locomanipIneqStep_vec_ne ctx m _ (by omega)]
    exact ih (by omega)

/-- Columns at or beyond the hand-block start are zero after the whole
locomanipulation loop. -/
theorem locomanipIneqAux_mat_col_ge {S : Type} (ctx : LocomanipCtx S) (i q : ℕ)
    (hq : ctx.motion_len * ctx.vel_dim ≤ q) :
    ∀ m, m ≤ ctx.motion_len → (locomanipIneqAux ctx m).1 i q = 0 := by
  intro m
  induction m with
  | zero => intro _; rfl
  | succ m ih =>
    intro hm
    show (locomanipIneqStep ctx m (locomanipIneqAux ctx m)).1 i q = 0
    rw [locomanipIneqStep_mat_col_ge ctx m _ i q (by omega) hq]
    exact ih (by omega)

/-- A processed row of the locomanipulation loop keeps the value written at
its own iteration. -/
theorem locomanipIneqAux_mat_stable {S : Type} (ctx : LocomanipCtx S) (i q : ℕ) :
    ∀ m, i < m →
      (locomanipIneqAux ctx m).1 i q
        = (locomanipIneqStep ctx i (locomanipIneqAux ctx i)).1 i q := by
  intro m
  induction m with
  | zero => intro h; exact absurd h (Nat.not_lt_zero i)
  | succ m ih =>
    intro hm
    by_cases he : i = m
    · subst he; rfl
    · show (locomanipIneqStep ctx m (locomanipIneqAux ctx m)).1 i q = _
      rw [locomanipIneqStep_mat_ne ctx m _ q he]
      exact ih (by omega)

/-- A processed entry of the locomanipulation vector keeps the value written
at its own iteration. -/
theorem locomanipIneqAux_vec_stable {S : Type} (ctx : LocomanipCtx S) (i : ℕ) :
    ∀ m, i < m →
      (locomanipIneqAux ctx m).2 i
        = (locomanipIneqStep ctx i (locomanipIneqAux ctx i)).2 i := by
  intro m
  induction m with
  | zero => intro h; exact absurd h (Nat.not_lt_zero i)
  | succ m ih =>
    intro hm
    by_cases he : i = m
    · subst he; rfl
    · show (locomanipIneqStep ctx m (locomanipIneqAux ctx m)).2 i = _
      rw [locomanipIneqStep_vec_ne ctx m _ he]
      exact ih (by omega)

/-- Pointwise reading of the slack-diagonal overwrite. -/
theorem setSlackDiagNeg1_apply (M : Mat) (c0 n p q : ℕ) :
    setSlackDiagNeg1 M c0 n p q = if p < n ∧ q = c0 + p then -1 else M p q := rfl

/-- C4: with only the foot constraints active (the foot-to-hand block is
absent and the collision count zero), the locomanipulation QP has exactly
`3 * motion_len - 1` inequality rows; the foot-to-foot reachability
constraints occupy rows `0 … motion_len - 1` (inequality value and the two
velocity blocks of each row), the remaining rows carry a zero value and zero
velocity coefficients, and every inequality row `i` has coefficient `-1` on
its own dedicated slack variable and `0` on every other slack column. -/
theorem claim4_inequality_layout {S : Type} (ctx : LocomanipCtx S)
    (hL : 1 ≤ ctx.motion_len) (hd : 0 < ctx.vel_dim) :
    (locomanipQpCoeff ctx).dim_ineq = 3 * ctx.motion_len - 1
    ∧ (∀ i, i < 3 * ctx.motion_len - 1 →
        locomanipIneqMat ctx i (locomanipConfigDim ctx + i) = -1)
    ∧ (∀ i j, i < 3 * ctx.motion_len - 1 → j < 3 * ctx.motion_len - 1 → j ≠ i →
        locomanipIneqMat ctx i (locomanipConfigDim ctx + j) = 0)
    ∧ (∀ i, i < ctx.motion_len →
        locomanipIneqVec ctx i
          = ctx.calcSVMValue (locomanipRowLimb i) (locomanipRelSample ctx i) - ctx.svm_thre)
    ∧ (∀ i t, i < ctx.motion_len → t < ctx.vel_dim →
        locomanipIneqMat ctx i (i * ctx.vel_dim + t)
            = negRowMatMul (locomanipGrad ctx i)
                (ctx.relVelToVelMat (locomanipPreFootSample ctx i)
                  (locomanipSucFootSample ctx i) true) ctx.vel_dim t
          ∧ (1 ≤ i →
              locomanipIneqMat ctx i ((i - 1) * ctx.vel_dim + t)
                = negRowMatMul (locomanipGrad ctx i)
                    (ctx.relVelToVelMat (locomanipPreFootSample ctx i)
                      (locomanipSucFootSample ctx i) false) ctx.vel_dim t))
    ∧ (∀ i, ctx.motion_len ≤ i → locomanipIneqVec ctx i = 0)
    ∧ (∀ i q, ctx.motion_len ≤ i → q < locomanipConfigDim ctx →
        locomanipIneqMat ctx i q = 0) := by
  have hcd : locomanipConfigDim ctx
      = ctx.motion_len * ctx.vel_dim + ctx.motion_len * ctx.vel_dim := by
    unfold locomanipConfigDim
    ring
  refine ⟨rfl, ?_, ?_, ?_, ?_, ?_, ?_⟩
  · intro i hi
    unfold locomanipIneqMat
    rw [setSlackDiagNeg1_apply, if_pos ⟨hi, rfl⟩]
  · intro i j hi hj hji
    unfold locomanipIneqMat
    rw [setSlackDiagNeg1_apply, if_neg (by rintro ⟨_, h⟩; omega)]
    exact locomanipIneqAux_mat_col_ge ctx i _ (by omega) ctx.motion_len (le_refl _)
  · intro i hi
    unfold locomanipIneqVec
    rw [locomanipIneqAux_vec_stable ctx i ctx.motion_len hi, locomanipIneqStep_vec]
    unfold setVecEntry
    rw [if_pos rfl]
  · intro i t hi ht
    have hmul : (i + 1) * ctx.vel_dim ≤ ctx.motion_len * ctx.vel_dim :=
      Nat.mul_le_mul_right _ hi
    have hs : (i + 1) * ctx.vel_dim = i * ctx.vel_dim + ctx.vel_dim := Nat.succ_mul _ _
    constructor
    · unfold locomanipIneqMat
      rw [setSlackDiagNeg1_apply, if_neg (by rintro ⟨_, h⟩; omega)]
      rw [locomanipIneqAux_mat_stable ctx i _ ctx.motion_len hi, locomanipIneqStep_mat,
        setRowSegment_apply, if_pos ⟨rfl, by omega, by omega⟩]
      have hidx : i * ctx.vel_dim + t - i * ctx.vel_dim = t := by omega
      rw [hidx]
    · intro h1
      have hs2 : (i - 1 + 1) * ctx.vel_dim = (i - 1) * ctx.vel_dim + ctx.vel_dim :=
        Nat.succ_mul _ _
      have he : i - 1 + 1 = i := by omega
      rw [he] at hs2
      unfold locomanipIneqMat
      rw [setSlackDiagNeg1_apply, if_neg (by rintro ⟨_, h⟩; omega)]
      rw [locomanipIneqAux_mat_stable ctx i _ ctx.motion_len hi, locomanipIneqStep_mat,
        setRowSegment_apply, if_neg (by rintro ⟨_, _, hlt⟩; omega), mat_ite_apply,
        if_neg (by omega), setRowSegment_apply, if_pos ⟨rfl, by omega, by omega⟩]
      have hidx : (i - 1) * ctx.vel_dim + t - (i - 1) * ctx.vel_dim = t := by omega
      rw [hidx]
  · intro i hi
    unfold locomanipIneqVec
    exact locomanipIneqAux_vec_ge ctx i ctx.motion_len hi
  · intro i q hi hq
    unfold locomanipIneqMat
    rw [setSlackDiagNeg1_apply, if_neg (by rintro ⟨_, h⟩; omega)]
    exact locomanipIneqAux_mat_ge ctx i q ctx.motion_len hi

/-- Witness for C4 at the concrete one-step locomanipulation context:
2 inequality rows, row 0 carries the foot constraint and slack `-1`, row 1 is
inactive. -/
theorem claim4_witness :
    (locomanipQpCoeff ctxLocomanipFail).dim_ineq = 2
    ∧ locomanipIneqMat ctxLocomanipFail 0 (locomanipConfigDim ctxLocomanipFail + 0) = -1
    ∧ locomanipIneqVec ctxLocomanipFail 1 = 0 :=
  ⟨(claim4_inequality_layout ctxLocomanipFail (by decide) (by decide)).1,
    (claim4_inequality_layout ctxLocomanipFail (by decide) (by decide)).2.1 0 (by decide),
    (claim4_inequality_layout ctxLocomanipFail (by decide) (by decide)).2.2.2.2.2.1 1
      (by decide)⟩

end DiffRmap

